import Mathlib

/-!
Verification of the layered-configuration workspace engine.

This file gives a shallow embedding of the core value tree, the merge rule
(lodash mergeWith with the array-concatenation customizer), the
ConfigurationReader, the AsyncTemplateRenderer two-pass evaluator, the
FunctionRegistry selection logic, the secret-resolution path and the
processor pipeline, and proves properties about them.

Conventions:
  - JavaScript `undefined` is represented as `Option Value` with `none`.
  - JavaScript objects are insertion-ordered string-keyed maps (`Fields`).
  - Asynchronous functions are modelled as pure functions into `Except Err`;
    rejected promises are `.error`.
  - Ghost information (fetcher invocation logs, configuration-fetcher request
    traces) is threaded alongside results so that scheduling-free claims about
    invocation counts and request chains can be stated; the value component of
    every definition mirrors the source.
-/

set_option maxHeartbeats 1000000

/- The recursive value tree stored in configurations: null, booleans, numbers,
strings, ordered lists, and insertion-ordered string-keyed maps.
(`Items` and `Fields` are specialized list types so that all recursions are
structural and kernel-computable.) -/
mutual
inductive Value where
  | null
  | bool (b : Bool)
  | num (n : Int)
  | str (s : String)
  | arr (items : Items)
  | obj (fields : Fields)
deriving Repr

inductive Items where
  | nil
  | cons (v : Value) (rest : Items)
deriving Repr

inductive Fields where
  | nil
  | cons (k : String) (v : Value) (rest : Fields)
deriving Repr
end

mutual
def Value.decEq : (a b : Value) → Decidable (a = b)
  | .null, .null => isTrue rfl
  | .null, .bool _ => isFalse nofun
  | .null, .num _ => isFalse nofun
  | .null, .str _ => isFalse nofun
  | .null, .arr _ => isFalse nofun
  | .null, .obj _ => isFalse nofun
  | .bool _, .null => isFalse nofun
  | .bool a, .bool b =>
      match decEq a b with
      | isTrue h => isTrue (by rw [h])
      | isFalse h => isFalse (fun hh => h (by injection hh))
  | .bool _, .num _ => isFalse nofun
  | .bool _, .str _ => isFalse nofun
  | .bool _, .arr _ => isFalse nofun
  | .bool _, .obj _ => isFalse nofun
  | .num _, .null => isFalse nofun
  | .num _, .bool _ => isFalse nofun
  | .num a, .num b =>
      match decEq a b with
      | isTrue h => isTrue (by rw [h])
      | isFalse h => isFalse (fun hh => h (by injection hh))
  | .num _, .str _ => isFalse nofun
  | .num _, .arr _ => isFalse nofun
  | .num _, .obj _ => isFalse nofun
  | .str _, .null => isFalse nofun
  | .str _, .bool _ => isFalse nofun
  | .str _, .num _ => isFalse nofun
  | .str a, .str b =>
      match decEq a b with
      | isTrue h => isTrue (by rw [h])
      | isFalse h => isFalse (fun hh => h (by injection hh))
  | .str _, .arr _ => isFalse nofun
  | .str _, .obj _ => isFalse nofun
  | .arr _, .null => isFalse nofun
  | .arr _, .bool _ => isFalse nofun
  | .arr _, .num _ => isFalse nofun
  | .arr _, .str _ => isFalse nofun
  | .arr a, .arr b =>
      match Items.decEq a b with
      | isTrue h => isTrue (by rw [h])
      | isFalse h => isFalse (fun hh => h (by injection hh))
  | .arr _, .obj _ => isFalse nofun
  | .obj _, .null => isFalse nofun
  | .obj _, .bool _ => isFalse nofun
  | .obj _, .num _ => isFalse nofun
  | .obj _, .str _ => isFalse nofun
  | .obj _, .arr _ => isFalse nofun
  | .obj a, .obj b =>
      match Fields.decEq a b with
      | isTrue h => isTrue (by rw [h])
      | isFalse h => isFalse (fun hh => h (by injection hh))

def Items.decEq : (a b : Items) → Decidable (a = b)
  | .nil, .nil => isTrue rfl
  | .nil, .cons _ _ => isFalse nofun
  | .cons _ _, .nil => isFalse nofun
  | .cons v r, .cons v' r' =>
      match Value.decEq v v', Items.decEq r r' with
      | isTrue h1, isTrue h2 => isTrue (by rw [h1, h2])
      | isFalse h1, _ => isFalse (fun hh => h1 (by injection hh))
      | _, isFalse h2 => isFalse (fun hh => h2 (by injection hh))

def Fields.decEq : (a b : Fields) → Decidable (a = b)
  | .nil, .nil => isTrue rfl
  | .nil, .cons _ _ _ => isFalse nofun
  | .cons _ _ _, .nil => isFalse nofun
  | .cons k v r, .cons k' v' r' =>
      match decEq k k', Value.decEq v v', Fields.decEq r r' with
      | isTrue h0, isTrue h1, isTrue h2 => isTrue (by rw [h0, h1, h2])
      | isFalse h0, _, _ => isFalse (fun hh => h0 (by injection hh))
      | _, isFalse h1, _ => isFalse (fun hh => h1 (by injection hh))
      | _, _, isFalse h2 => isFalse (fun hh => h2 (by injection hh))
end

instance : DecidableEq Value := Value.decEq
instance : DecidableEq Items := Items.decEq
instance : DecidableEq Fields := Fields.decEq

/-- The keys of a JavaScript object, in insertion order (Object.keys). -/
def keysOf : Fields → List String
  | .nil => []
  | .cons k _ rest => k :: keysOf rest

/-- Property access obj[k]: the value stored under the first occurrence of a
key, or `none` (undefined) when the key is absent. -/
def Fields.get? : Fields → String → Option Value
  | .nil, _ => none
  | .cons k v rest, key => if k = key then some v else rest.get? key

/-- Property assignment obj[k] = v: overrides the value in place when the key
exists (keeping its position), appends the key otherwise. -/
def Fields.set : Fields → String → Value → Fields
  | .nil, key, value => .cons key value .nil
  | .cons k v rest, key, value =>
      if k = key then .cons k value rest else .cons k v (rest.set key value)

/-- Removal of a key (used for rest-destructuring, as in
const \x7b backend, ...configuration \x7d = record). -/
def Fields.remove : Fields → String → Fields
  | .nil, _ => .nil
  | .cons k v rest, key =>
      if k = key then rest.remove key else .cons k v (rest.remove key)

/-- Whether the object has the given key. -/
def Fields.hasKey (f : Fields) (key : String) : Bool :=
  (f.get? key).isSome

def Items.append : Items → Items → Items
  | .nil, b => b
  | .cons v rest, b => .cons v (rest.append b)

def Fields.append : Fields → Fields → Fields
  | .nil, b => b
  | .cons k v rest, b => .cons k v (rest.append b)

/-- The value of the first field (used for the template payload of a template
object, whose field list is a singleton). -/
def Fields.firstValue : Fields → Value
  | .nil => .null
  | .cons _ v _ => v

def Items.toList : Items → List Value
  | .nil => []
  | .cons v rest => v :: rest.toList

def Items.ofList : List Value → Items
  | [] => .nil
  | v :: rest => .cons v (Items.ofList rest)

def Fields.toList : Fields → List (String × Value)
  | .nil => []
  | .cons k v rest => (k, v) :: rest.toList

def Fields.ofList : List (String × Value) → Fields
  | [] => .nil
  | (k, v) :: rest => .cons k v (Fields.ofList rest)

/- String coercion as performed by the template engine and lodash toString:
null (and undefined) yield the empty string, booleans and numbers their
decimal form, arrays the comma-joined coercion of their elements, and plain
objects the tag string. -/
mutual
def jsStr : Value → String
  | .null => ""
  | .bool b => if b then "true" else "false"
  | .num n => toString n
  | .str s => s
  | .arr items => jsStrItems items
  | .obj _ => "[object Object]"

def jsStrItems : Items → String
  | .nil => ""
  | .cons v .nil => jsStr v
  | .cons v rest => jsStr v ++ "," ++ jsStrItems rest
end

/-- JavaScript falsiness: undefined, null, false, 0, and the empty string. -/
def jsFalsy : Value → Bool
  | .null => true
  | .bool b => !b
  | .num n => n = 0
  | .str s => s = ""
  | _ => false

/-- The structured errors surfaced by the engine (configuration reader,
template renderer, function registry, context and secrets path). `custom`
stands for arbitrary user-thrown errors, which the engine propagates
unchanged. -/
inductive Err where
  | unformattedTemplateValue (path : String)
  | configurationValueNotFound (path : String)
  | circularTemplateReference (path : String)
  | templateRendering (template : String) (cause : Err)
  | referencedData (fetcher : String) (args : List Value)
  | notDefined (name : String)
  | noImplementationFound (functionName : String)
  | tooManyImplementations (functionName : String)
  | invalidFunctionArgument (message : String)
  | invalidProcessorOutput (processorName : String)
  | invalidSecretDefinition (message : String) (secretId : Option String)
  | secretBackendNotFound (backend : Value)
  | secretBackendNotSpecified (secretId : String)
  | typeError (message : String)
  | outOfFuel
deriving DecidableEq, Repr

instance {e a : Type} [DecidableEq e] [DecidableEq a] :
    DecidableEq (Except e a) := fun x y =>
  match x, y with
  | .error u, .error v =>
      match decEq u v with
      | isTrue h => isTrue (by rw [h])
      | isFalse h => isFalse fun hh => h (by injection hh)
  | .error _, .ok _ => isFalse nofun
  | .ok _, .error _ => isFalse nofun
  | .ok u, .ok v =>
      match decEq u v with
      | isTrue h => isTrue (by rw [h])
      | isFalse h => isFalse fun hh => h (by injection hh)

/- AsyncTemplateRenderer.containsRenderingObject: whether the object or one of
its children is a template object, i.e. a map whose key list equals the
singleton [templateKey]. Scalar inputs (and undefined) are not templates. -/
mutual
def containsRenderingObject (templateKey : String) : Value → Bool
  | .arr items => containsRenderingObjectItems templateKey items
  | .obj fields =>
      if keysOf fields = [templateKey] then true
      else containsRenderingObjectFields templateKey fields

  | _ => false

def containsRenderingObjectItems (templateKey : String) : Items → Bool
  | .nil => false
  | .cons v rest =>
      containsRenderingObject templateKey v ||
        containsRenderingObjectItems templateKey rest

def containsRenderingObjectFields (templateKey : String) : Fields → Bool
  | .nil => false
  | .cons _ v rest =>
      containsRenderingObject templateKey v ||
        containsRenderingObjectFields templateKey rest
end

/-- containsRenderingObject lifted to possibly-undefined values; undefined is
not an object and contains no template. -/
def containsRenderingObjectOpt (templateKey : String) : Option Value → Bool
  | none => false
  | some v => containsRenderingObject templateKey v

/-- Modelled from the spec: the dynamic string-template library (lodash
template) compiles a format string into an alternation of literal text and
fetcher calls with literal arguments; per the design notes a minimal
interpreter supporting identifier calls and string concatenation covers every
observed use. A compiled template is the list of its chunks. -/
inductive Chunk where
  | lit (s : String)
  | call (fetcher : String) (args : List Value)
deriving DecidableEq, Repr

/-- The compile step of the external template library (template(tpl) before it
is applied to a table of fetchers). The renderer is parameterized over it. -/
abbrev Compile := String → List Chunk

/-- The (fetcher, args) pairs called by a compiled template, in evaluation
order. -/
def chunkCalls (chunks : List Chunk) : List (String × List Value) :=
  chunks.filterMap fun c =>
    match c with
    | .lit _ => none
    | .call f a => some (f, a)

/-- One entry of the renderer data cache: the arguments passed to a fetcher,
uniquely referencing the data, and the data returned by the fetcher (`none`
both before fetchData has run and when the fetcher resolved to undefined,
exactly as the source field can only hold the single JavaScript value
`undefined` in both situations). -/
structure ReferencedDataEntry where
  args : List Value
  data : Option Value
deriving DecidableEq, Repr

/-- The renderer data cache: for every fetcher name, the list of (unique)
referenced evaluations. Initialized with an empty list per fetcher. -/
abbrev DataCache := List (String × List ReferencedDataEntry)

/-- A request made to the builtin configuration fetcher: the path stack at the
moment of the request, and the requested path (ghost data for the circular
reference analysis). -/
abbrev RequestTrace := List (List String × String)

/-- A data fetcher: receives the arguments from the template and either
rejects with an error or resolves with a value (`none` = undefined), together
with the ghost trace of configuration requests made underneath. -/
abbrev DataFetcher := List Value → Except Err (Option Value × RequestTrace)

/-- The table of fetchers exposed to templates, in key insertion order. -/
abbrev DataFetchers := List (String × DataFetcher)

def findAssoc {α : Type} : List (String × α) → String → Option α
  | [], _ => none
  | (k, v) :: rest, key => if k = key then some v else findAssoc rest key

/-- Assignment into an association list, overriding in place or appending
(object-spread semantics of adding one key to a copied record). -/
def setAssoc {α : Type} : List (String × α) → String → α → List (String × α)
  | [], key, value => [(key, value)]
  | (k, v) :: rest, key, value =>
      if k = key then (k, value) :: rest
      else (k, v) :: setAssoc rest key value

/-- The cache-builder mock fetcher for one fetcher name: if an entry with
structurally equal arguments already exists, do nothing; otherwise push an
entry with the data left undefined. -/
def cacheBuilderAdd (entries : List ReferencedDataEntry) (args : List Value) :
    List ReferencedDataEntry :=
  if entries.any fun e => e.args = args then entries
  else entries ++ [⟨args, none⟩]

/-- Applies the cache builder of the named fetcher in the data cache. -/
def DataCache.add (cache : DataCache) (name : String) (args : List Value) :
    DataCache :=
  cache.map fun nameEntries =>
    if nameEntries.1 = name then (nameEntries.1, cacheBuilderAdd nameEntries.2 args)
    else nameEntries

/-- Evaluating a compiled template against the table of cache builders (pass
1): every call to a known fetcher records its arguments; a call to a name
absent from the table is the ReferenceError the template engine raises. The
rendered text is discarded. -/
def runCacheBuilders (fetcherNames : List String) (chunks : List Chunk)
    (cache : DataCache) : Except Err DataCache :=
  match chunks with
  | [] => .ok cache
  | .lit _ :: rest => runCacheBuilders fetcherNames rest cache
  | .call f args :: rest =>
      if fetcherNames.contains f then
        runCacheBuilders fetcherNames rest (cache.add f args)
      else .error (.notDefined f)

/-- The cache-data finder for pass 2: looks the (fetcher, args) pair up in the
populated cache; an absent entry, like an entry whose data is undefined, is a
ReferencedDataError. -/
def cacheDataFinder (cache : DataCache) (f : String) (args : List Value) :
    Except Err Value :=
  match findAssoc cache f with
  | none => .error (.notDefined f)
  | some entries =>
      match entries.find? fun e => e.args = args with
      | none => .error (.referencedData f args)
      | some entry =>
          match entry.data with
          | none => .error (.referencedData f args)
          | some v => .ok v

/-- Evaluating a compiled template against the table of cache-data finders
(pass 2): literal chunks are copied, call chunks are replaced by the string
coercion of the cached data, and the results are concatenated. -/
def runCacheDataFinders (cache : DataCache) (chunks : List Chunk) :
    Except Err String :=
  match chunks with
  | [] => .ok ""
  | .lit s :: rest => (runCacheDataFinders cache rest).map fun r => s ++ r
  | .call f args :: rest =>
      match cacheDataFinder cache f args with
      | .error e => .error e
      | .ok v => (runCacheDataFinders cache rest).map fun r => jsStr v ++ r

/- transformTemplatesRecursively: walks the object looking for template
objects (maps whose only key is the template key) and evaluates them with the
provided transform, threading a state component. A transform result of `none`
(undefined) leaves the template object untouched; an error raised by the
transform is wrapped as TemplateRenderingError. Arrays are traversed
element-wise and other maps field by field; scalars are returned unchanged.
The payload of a template object inside a transformed value is never
re-rendered (the walk does not recurse into template objects). -/
mutual
def transformTemplates {σ : Type} (templateKey : String)
    (transform : σ → String → Except Err (σ × Option Value)) :
    σ → Value → Except Err (σ × Value)
  | s, .arr items =>
      match transformTemplatesItems templateKey transform s items with
      | .error e => .error e
      | .ok (s', items') => .ok (s', .arr items')
  | s, .obj fields =>
      if keysOf fields = [templateKey] then
        match transform s (jsStr fields.firstValue) with
        | .error e => .error (.templateRendering (jsStr fields.firstValue) e)
        | .ok (s', some v) => .ok (s', v)
        | .ok (s', none) => .ok (s', .obj fields)
      else
        match transformTemplatesFields templateKey transform s fields with
        | .error e => .error e
        | .ok (s', fields') => .ok (s', .obj fields')
  | s, v => .ok (s, v)

def transformTemplatesItems {σ : Type} (templateKey : String)
    (transform : σ → String → Except Err (σ × Option Value)) :
    σ → Items → Except Err (σ × Items)
  | s, .nil => .ok (s, .nil)
  | s, .cons v rest =>
      match transformTemplates templateKey transform s v with
      | .error e => .error e
      | .ok (s', v') =>
          match transformTemplatesItems templateKey transform s' rest with
          | .error e => .error e
          | .ok (s'', rest') => .ok (s'', .cons v' rest')

def transformTemplatesFields {σ : Type} (templateKey : String)
    (transform : σ → String → Except Err (σ × Option Value)) :
    σ → Fields → Except Err (σ × Fields)
  | s, .nil => .ok (s, .nil)
  | s, .cons k v rest =>
      match transformTemplates templateKey transform s v with
      | .error e => .error e
      | .ok (s', v') =>
          match transformTemplatesFields templateKey transform s' rest with
          | .error e => .error e
          | .ok (s'', rest') => .ok (s'', .cons k v' rest')
end

/-- Pass 1 over a possibly-undefined value: collect every unique
(fetcher, args) pair referenced by a template into the data cache. The
rendered value is discarded. -/
def discoverReferencedData (templateKey : String) (compile : Compile)
    (fetcherNames : List String) (value : Option Value) (cache : DataCache) :
    Except Err DataCache :=
  match value with
  | none => .ok cache
  | some v =>
      match transformTemplates templateKey
          (fun c tpl =>
            match runCacheBuilders fetcherNames (compile tpl) c with
            | .error e => .error e
            | .ok c' => .ok (c', none))
          cache v with
      | .error e => .error e
      | .ok (cache', _) => .ok cache'

/-- Invokes the named fetcher once per cache entry, in order, populating the
data fields. -/
def fetchEntries (fetchers : DataFetchers) (name : String) :
    List ReferencedDataEntry →
    Except Err (List ReferencedDataEntry × List (String × List Value) × RequestTrace)
  | [] => .ok ([], [], [])
  | entry :: rest =>
      match findAssoc fetchers name with
      | none => .error (.notDefined name)
      | some fetch =>
          match fetch entry.args with
          | .error e => .error e
          | .ok (data, trace) =>
              match fetchEntries fetchers name rest with
              | .error e => .error e
              | .ok (rest', log, trace') =>
                  .ok (⟨entry.args, data⟩ :: rest', (name, entry.args) :: log,
                    trace ++ trace')

/-- fetchData: invokes the fetcher of every cache entry (each exactly once)
and stores the response in the entry. A rejected fetcher propagates its error
unchanged. Returns the populated cache, the ghost list of invocations made
(fetcher name, arguments), and the accumulated configuration request trace. -/
def fetchData (fetchers : DataFetchers) :
    DataCache → Except Err (DataCache × List (String × List Value) × RequestTrace)
  | [] => .ok ([], [], [])
  | (name, entries) :: rest =>
      match fetchEntries fetchers name entries with
      | .error e => .error e
      | .ok (entries', log, trace) =>
          match fetchData fetchers rest with
          | .error e => .error e
          | .ok (rest', log', trace') =>
              .ok ((name, entries') :: rest', log ++ log', trace ++ trace')

/-- Pass 2 over a possibly-undefined value: replace every template object by
the string rendered from the populated cache. -/
def substituteTemplates (templateKey : String) (compile : Compile)
    (cache : DataCache) (value : Option Value) : Except Err (Option Value) :=
  match value with
  | none => .ok none
  | some v =>
      match transformTemplates templateKey
          (fun u tpl =>
            match runCacheDataFinders cache (compile tpl) with
            | .error e => .error e
            | .ok s => .ok (u, some (.str s)))
          () v with
      | .error e => .error e
      | .ok (_, v') => .ok (some v')

/-- AsyncTemplateRenderer.render: deep-clones the value (the model is pure, so
the output is a value structurally independent of the input), runs the
discovery pass with the cache-builder mocks, invokes every unique
(fetcher, args) pair and populates the result cache, then runs the
substitution pass with the cache-data finders. Returns the rendered value,
the ghost invocation log, and the ghost configuration request trace. -/
def render (templateKey : String) (compile : Compile) (fetchers : DataFetchers)
    (value : Option Value) :
    Except Err (Option Value × List (String × List Value) × RequestTrace) :=
  let cache0 : DataCache := fetchers.map fun nf => (nf.1, [])
  match discoverReferencedData templateKey compile (fetchers.map (·.1)) value cache0 with
  | .error e => .error e
  | .ok cache1 =>
      match fetchData fetchers cache1 with
      | .error e => .error e
      | .ok (cache2, log, trace) =>
          match substituteTemplates templateKey compile cache2 value with
          | .error e => .error e
          | .ok value' => .ok (value', log, trace)

/-- The items a source value contributes when concatenated onto an array-typed
destination value (Array.prototype.concat: an array spreads its elements, any
other value is appended as a single element). -/
def concatItems : Value → Items
  | .arr items => items
  | v => .cons v .nil

/-- The mergeWith customizer from mergeRawConfiguration: when the destination
value is an array, concatenate the source value onto it; otherwise defer to
the default merge behavior. -/
def mergeCustomizer (objValue srcValue : Value) : Option Value :=
  match objValue with
  | .arr items => some (.arr (items.append (concatItems srcValue)))
  | _ => none

/- The value-level merge of lodash mergeWith under the customizer above
(baseMergeDeep): the customizer wins when it returns a value; otherwise an
array source replaces a non-array destination, a map source merges
recursively into a map destination and replaces any other destination, and a
scalar source always wins. Field order: existing destination keys keep their
position, new source keys are appended in source order. -/
mutual
def mergeValue (objValue srcValue : Value) : Value :=
  match mergeCustomizer objValue srcValue with
  | some merged => merged
  | none =>
      match srcValue with
      | .obj srcFields =>
          match objValue with
          | .obj objFields => .obj (mergeFields objFields srcFields)
          | _ => .obj srcFields
      | v => v

def mergeFields (objFields : Fields) (srcFields : Fields) : Fields :=
  match srcFields with
  | .nil => objFields
  | .cons key srcValue rest =>
      match objFields.get? key with
      | none => mergeFields (objFields.append (.cons key srcValue .nil)) rest
      | some objValue => mergeFields (objFields.set key (mergeValue objValue srcValue)) rest
end

def indexFields (start : Nat) : Items → Fields
  | .nil => .nil
  | .cons v rest => .cons (toString start) v (indexFields (start + 1) rest)

/-- The own enumerable keys a source value exposes to the top-level
mergeWith(object, source) iteration: a map contributes its fields, an array
its index-keyed elements. Primitive sources are outside the declared
configuration type and contribute nothing here. -/
def sourceFields : Value → Fields
  | .obj fields => fields
  | .arr items => indexFields 0 items
  | _ => .nil

/-- One step of the mergeRawConfiguration reduce: mergeWith(conf, cloneDeep
(source), customizer). The accumulated configuration is a map throughout the
reader flows; a non-map accumulator cannot receive properties and is returned
unchanged. -/
def mergeTop (conf source : Value) : Value :=
  match conf with
  | .obj confFields => .obj (mergeFields confFields (sourceFields source))
  | other => other

/-- A single configuration loaded from a single source. -/
structure RawConfiguration where
  sourceType : String
  source : Option String
  configuration : Value
deriving DecidableEq, Repr

/-- mergeRawConfiguration: merges the raw configurations left to right onto a
deep copy of the base configuration (default: the empty map). All inputs are
deep-copied, never mutated; in this pure model the deep copies are the values
themselves. -/
def mergeRawConfiguration (rawConfigurations : List RawConfiguration)
    (configuration : Value := .obj .nil) : Value :=
  rawConfigurations.foldl (fun conf raw => mergeTop conf raw.configuration)
    configuration

/-- Options for ConfigurationReader.get (unsafeOpt models the option named
unsafe in the source, which is a reserved word here). -/
structure ConfigurationGetOptions where
  unsafeOpt : Bool := false
deriving DecidableEq, Repr

/-- An object constructing a configuration from several sources. The stored
configuration is the merged raw configurations (the private constructor
option used by mergedWith is the configuration field itself). -/
structure ConfigurationReader where
  templateKey : String := "$format"
  rawConfigurations : List RawConfiguration
  configuration : Value
deriving DecidableEq, Repr

/-- The public constructor: merges the raw configurations. -/
def ConfigurationReader.ofRawConfigurations
    (rawConfigurations : List RawConfiguration)
    (templateKey : String := "$format") : ConfigurationReader :=
  { templateKey := templateKey,
    rawConfigurations := rawConfigurations,
    configuration := mergeRawConfiguration rawConfigurations }

/-- mergedWith: a copy of this reader with the given raw configurations
appended, the stored configuration being the incremental merge onto the
current one. -/
def ConfigurationReader.mergedWith (reader : ConfigurationReader)
    (rawConfigurations : List RawConfiguration) : ConfigurationReader :=
  { templateKey := reader.templateKey,
    rawConfigurations := reader.rawConfigurations ++ rawConfigurations,
    configuration :=
      mergeRawConfiguration rawConfigurations reader.configuration }

/-- Splits a character list on the dot separator (the kernel-computable
equivalent of splitting the path string on "."). -/
def splitOnDot : List Char → List (List Char)
  | [] => [[]]
  | c :: rest =>
      match splitOnDot rest with
      | [] => [[c]]
      | seg :: segs => if c = '.' then [] :: seg :: segs else (c :: seg) :: segs

/-- The segments of a dotted path. -/
def splitPath (path : String) : List String :=
  (splitOnDot path.data).map fun cs => ⟨cs⟩

/-- The numeric value of a list-indexing path segment, when every character
is a decimal digit (and the segment is not empty). -/
def segmentToNat : List Char → Option Nat
  | [] => none
  | cs => go cs 0
where
  go : List Char → Nat → Option Nat
    | [], acc => some acc
    | c :: rest, acc =>
        if c.isDigit then go rest (acc * 10 + (c.toNat - 48)) else none

/-- The dotted-path lookup of one segment (lodash get): string keys index
maps, numeric segments index lists, anything else is undefined. -/
def getSegment (v : Value) (segment : String) : Option Value :=
  match v with
  | .obj fields => fields.get? segment
  | .arr items =>
      match segmentToNat segment.data with
      | some n => (items.toList).get? n
      | none => none
  | _ => none

/-- lodash get over a dotted path (the documented path subset: dotted keys,
numeric segments indexing lists; missing segments yield undefined). -/
def getPath (conf : Value) (path : String) : Option Value :=
  (splitPath path).foldl (fun acc segment => acc.bind fun v => getSegment v segment)
    (some conf)

/-- ConfigurationReader.unsafeGet: the entire configuration when no path is
given, the value at the dotted path otherwise, without any template check. -/
def ConfigurationReader.unsafeGet (reader : ConfigurationReader) :
    Option String → Option Value
  | none => some reader.configuration
  | some path => getPath reader.configuration path

/-- ConfigurationReader.get: returns the value at the path (or the entire
configuration), failing with UnformattedTemplateValueError when the returned
subtree contains a template object unless the unsafe option is set. -/
def ConfigurationReader.get (reader : ConfigurationReader)
    (path : Option String)
    (options : ConfigurationGetOptions := {}) : Except Err (Option Value) :=
  let value := reader.unsafeGet path
  if !options.unsafeOpt && containsRenderingObjectOpt reader.templateKey value then
    .error (.unformattedTemplateValue (path.getD "."))
  else .ok value

/-- ConfigurationReader.getOrThrow: get, then ConfigurationValueNotFoundError
when the value is undefined. -/
def ConfigurationReader.getOrThrow (reader : ConfigurationReader)
    (path : String)
    (options : ConfigurationGetOptions := {}) : Except Err Value :=
  match reader.get (some path) options with
  | .error e => .error e
  | .ok none => .error (.configurationValueNotFound path)
  | .ok (some v) => .ok v

/-- path.startsWith(other): whether other is a prefix of path (stated over
the character lists so that it is kernel-computable). -/
def jsStartsWith (path other : String) : Bool :=
  other.data.isPrefixOf path.data

/-- The path argument the builtin configuration fetcher receives from the
template (the first argument, declared as a string in the source). -/
def configurationFetcherPath (args : List Value) : Option String :=
  match args.head? with
  | some (.str p) => some p
  | _ => none

/-- ConfigurationReader.getAndRenderWithStack: renders the value at the path,
checking for circular references made through the builtin configuration
fetcher. The fetcher table is the caller table spread-overridden with the
configuration fetcher, which fails with CircularTemplateReferenceError when
some path of the current stack is a startsWith-prefix of the requested path
and otherwise recursively renders the requested path with the path pushed
onto the stack. Recursion is bounded by fuel (the source recursion terminates
on every configuration, see the stack argument growth); fuel exhaustion is
the distinguished outOfFuel error. Every configuration-fetcher request is
recorded in the ghost trace as (path stack at the request, requested path). -/
def getAndRenderWithStack (compile : Compile) (reader : ConfigurationReader)
    (dataFetchers : DataFetchers) :
    Nat → Option String → List String →
    Except Err (Option Value × List (String × List Value) × RequestTrace)
  | 0, _, _ => .error .outOfFuel
  | fuel + 1, path, pathStack =>
      let configurationFetcher : DataFetcher := fun args =>
        match configurationFetcherPath args with
        | none => .error (.notDefined "configuration path is not a string")
        | some p =>
            if pathStack.any fun q => jsStartsWith p q then
              .error (.circularTemplateReference p)
            else
              match getAndRenderWithStack compile reader dataFetchers fuel
                  (some p) (pathStack ++ [p]) with
              | .error e => .error e
              | .ok (v, _, trace) => .ok (v, (pathStack, p) :: trace)
      let fetchers := setAssoc dataFetchers "configuration" configurationFetcher
      render reader.templateKey compile fetchers (reader.unsafeGet path)

/-- ConfigurationReader.getAndRender: getAndRenderWithStack with an empty
path stack. -/
def ConfigurationReader.getAndRender (reader : ConfigurationReader)
    (compile : Compile) (dataFetchers : DataFetchers) (fuel : Nat)
    (path : Option String) :
    Except Err (Option Value × List (String × List Value) × RequestTrace) :=
  getAndRenderWithStack compile reader dataFetchers fuel path []

/-- A materialized function implementation: plainToInstance has already
populated the instance fields from the caller-supplied argument map, leaving
the two behavioral members (the source names are prefixed with an
underscore). -/
structure Implementation (C R : Type) where
  supports : C → Bool
  call : C → R

/-- The constructor of a concrete implementation, materialized from an
argument map by plainToInstance. -/
abbrev ImplementationConstructor (C R : Type) := Value → Implementation C R

/-- A registered function: the definition is represented by its validation
bridge (modelled from the spec: parseObject validates a raw map against the
definition type, producing either an instance or a list of human-readable
failure messages) together with the list of implementation constructors, in
registration order. -/
structure RegisteredFunction (C R : Type) where
  validateDefinitionArguments : Value → Except (List String) Unit
  implementations : List (ImplementationConstructor C R)

/-- The function registry: a map from function (definition) names to the
registered function. -/
structure FunctionRegistry (C R : Type) where
  functions : List (String × RegisteredFunction C R)

/-- FunctionRegistry.getImplementations: materializes each registered
implementation of the named function with the arguments, and keeps those
whose supports(context) returns true, in registration order. An unregistered
name yields the empty list. -/
def FunctionRegistry.getImplementations {C R : Type}
    (registry : FunctionRegistry C R) (name : String) (args : Value)
    (context : C) : List (Implementation C R) :=
  ((((findAssoc registry.functions name).map
      (fun rf => rf.implementations)).getD []).map
    (fun ctor => ctor args)).filter
    (fun implementation => implementation.supports context)

/-- FunctionRegistry.getImplementation: the single supporting implementation;
NoImplementationFoundError when none supports the context,
TooManyImplementationsError when more than one does. -/
def FunctionRegistry.getImplementation {C R : Type}
    (registry : FunctionRegistry C R) (name : String) (args : Value)
    (context : C) : Except Err (Implementation C R) :=
  let implementations := registry.getImplementations name args context
  if implementations.length = 0 then .error (.noImplementationFound name)
  else if implementations.length > 1 then .error (.tooManyImplementations name)
  else
    match implementations with
    | implementation :: _ => .ok implementation
    | [] => .error (.noImplementationFound name)

/-- FunctionRegistry.validateArguments: looks the registered function up by
name (NoImplementationFoundError when absent) and runs the validator bridge,
reporting failures as InvalidFunctionArgumentError with the joined
messages. -/
def FunctionRegistry.validateArguments {C R : Type}
    (registry : FunctionRegistry C R) (name : String) (args : Value) :
    Except Err Unit :=
  match findAssoc registry.functions name with
  | none => .error (.noImplementationFound name)
  | some rf =>
      match rf.validateDefinitionArguments args with
      | .ok _ => .ok ()
      | .error messages =>
          .error (.invalidFunctionArgument (String.intercalate ", " messages))

/-- FunctionRegistry.call for asynchronous workspace functions: dispatch to
the unique supporting implementation and invoke it on the context. -/
def FunctionRegistry.call {C : Type} (registry : FunctionRegistry C (Except Err Value))
    (name : String) (args : Value) (context : C) : Except Err Value :=
  match registry.getImplementation name args context with
  | .error e => .error e
  | .ok implementation => implementation.call context

/-- WorkspaceContext.callByName: validates the arguments fully (calling the
function by name happens when it is not known at build time), then calls the
unique supporting implementation. -/
def callByName {C : Type} (registry : FunctionRegistry C (Except Err Value))
    (context : C) (name : String) (args : Value) : Except Err Value :=
  match registry.validateArguments name args with
  | .error e => .error e
  | .ok _ => registry.call name args context

/-- typeof v === "object" (true for null, arrays and maps; false for the
other primitives). -/
def jsTypeofObject : Value → Bool
  | .null => true
  | .obj _ => true
  | .arr _ => true
  | _ => false

/-- Property access on an arbitrary value: maps expose named properties;
arrays and the boxed primitives expose no property named "configuration"
(undefined); reading a property of null throws a TypeError, as in
JavaScript. -/
def jsGetProp (v : Value) (key : String) : Except Err (Option Value) :=
  match v with
  | .null =>
      .error (.typeError
        ("Cannot read properties of null (reading " ++ key ++ ")"))
  | .obj fields => .ok (fields.get? key)
  | _ => .ok none

/-- v instanceof Object: true exactly for non-primitive values (maps and
arrays here; functions are not representable in the value tree). -/
def instanceofObject : Value → Bool
  | .obj _ => true
  | .arr _ => true
  | _ => false

/-- The own enumerable fields spread by \x7b ...value \x7d for the values
that can reach the secret-record spread (maps and arrays; primitives spread
nothing). -/
def spreadFields : Value → Fields
  | .obj fields => fields
  | .arr items => indexFields 0 items
  | _ => .nil

/-- WorkspaceContext.secret: reads the secret record at secrets.id, requires
it to be a (truthy) object, determines the backend from the spread
\x7b backend: defaultBackend, ...record \x7d (so a backend key present on the
record overrides the default even when its value is null), fails with
SecretBackendNotSpecifiedError when the resulting backend is falsy, then
dispatches SecretFetch with the backend and the record without its backend
key. NoImplementationFoundError is translated to SecretBackendNotFoundError,
InvalidSecretDefinitionError is re-thrown with the secret id filled in, and
any other error propagates unchanged. The registry dispatch (call on the
SecretFetch definition, closed over the context) is the callSecretFetch
parameter. -/
def WorkspaceContext.secret (reader : ConfigurationReader)
    (callSecretFetch : Value → Except Err Value) (secretId : String) :
    Except Err Value :=
  match reader.getOrThrow ("secrets." ++ secretId) {} with
  | .error e => .error e
  | .ok secret =>
      if jsFalsy secret || !jsTypeofObject secret then
        .error (.invalidSecretDefinition "Expected an object." (some secretId))
      else
        match reader.get (some "causa.secrets.defaultBackend") {} with
        | .error e => .error e
        | .ok defaultBackend =>
            let backendValue : Option Value :=
              match (spreadFields secret).get? "backend" with
              | some v => some v
              | none => defaultBackend
            let configuration := (spreadFields secret).remove "backend"
            match backendValue with
            | none => .error (.secretBackendNotSpecified secretId)
            | some backend =>
                if jsFalsy backend then
                  .error (.secretBackendNotSpecified secretId)
                else
                  match callSecretFetch
                      (.obj (.cons "backend" backend
                        (.cons "configuration" (.obj configuration) .nil))) with
                  | .ok v => .ok v
                  | .error (.noImplementationFound _) =>
                      .error (.secretBackendNotFound backend)
                  | .error (.invalidSecretDefinition message _) =>
                      .error (.invalidSecretDefinition message (some secretId))
                  | .error e => .error e

/-- A processor to run when initializing the workspace context. -/
structure ProcessorInstruction where
  name : String
  args : Option Value
deriving DecidableEq, Repr

/-- makeProcessorConfiguration: the raw configuration layer built from a
processor output; the source type is processor and the source is the
processor name. -/
def makeProcessorConfiguration (name : String) (configuration : Value) :
    RawConfiguration :=
  { configuration := configuration,
    sourceType := "processor",
    source := some name }

/-- The context state the processor pipeline acts on: the configuration
reader and the history of applied processors. (The implementations of the
embedded registry receive the merged configuration in place of the full
context object, breaking the type-level recursion of the source; the
pipeline behavior does not depend on what the implementations read.) -/
structure WorkspaceContextModel where
  configuration : ConfigurationReader
  processors : List ProcessorInstruction
deriving DecidableEq, Repr

/-- WorkspaceContext.withProcessor: validates and calls the named function,
requires the output to expose a configuration property that is an Object
(the source check is output.configuration instanceof Object), merges it as a
new processor-sourced layer whose source is the processor name, and appends
the instruction to the processor history. A missing or primitive
configuration property fails with InvalidProcessorOutputError; on a null
output the property access itself throws a TypeError, which aborts the
pipeline unchanged. -/
def WorkspaceContext.withProcessor
    (registry : FunctionRegistry Value (Except Err Value))
    (context : WorkspaceContextModel) (processor : ProcessorInstruction) :
    Except Err WorkspaceContextModel :=
  match callByName registry context.configuration.configuration processor.name
      (processor.args.getD (.obj .nil)) with
  | .error e => .error e
  | .ok output =>
      match jsGetProp output "configuration" with
      | .error e => .error e
      | .ok (some configurationField) =>
          if instanceofObject configurationField then
            .ok { configuration :=
                    context.configuration.mergedWith
                      [makeProcessorConfiguration processor.name configurationField],
                  processors := context.processors ++ [processor] }
          else .error (.invalidProcessorOutput processor.name)
      | .ok none => .error (.invalidProcessorOutput processor.name)

/-- The processor loop of WorkspaceContext.init: applies each instruction in
order, threading the context. -/
def WorkspaceContext.initProcessors
    (registry : FunctionRegistry Value (Except Err Value)) :
    WorkspaceContextModel → List ProcessorInstruction →
    Except Err WorkspaceContextModel
  | context, [] => .ok context
  | context, processor :: rest =>
      match WorkspaceContext.withProcessor registry context processor with
      | .error e => .error e
      | .ok context' => WorkspaceContext.initProcessors registry context' rest

/-- C4: for every reader, every pair of layers and every path (and options),
the reader merged with both layers at once and the reader merged with them
one at a time hold identical configurations, so get returns the same value:
merging layers is left-associative. -/
theorem mergedWith_left_associative (reader : ConfigurationReader)
    (l1 l2 : RawConfiguration) (path : Option String)
    (options : ConfigurationGetOptions) :
    (reader.mergedWith [l1, l2]).get path options =
      ((reader.mergedWith [l1]).mergedWith [l2]).get path options := by
  have h : reader.mergedWith [l1, l2] =
      (reader.mergedWith [l1]).mergedWith [l2] := by
    simp [ConfigurationReader.mergedWith, mergeRawConfiguration]
  rw [h]

/-- C5: get fails with UnformattedTemplateValueError at the requested path
exactly when the returned subtree contains a template object and the unsafe
option is not set; with the unsafe option the raw value (with any template
objects) is returned; and getOrThrow fails with the same error under the same
condition. -/
theorem get_unformatted_template_guard (reader : ConfigurationReader)
    (path : Option String) (p : String) (options : ConfigurationGetOptions) :
    (reader.get path options =
        .error (.unformattedTemplateValue (path.getD ".")) ↔
      options.unsafeOpt = false ∧
        containsRenderingObjectOpt reader.templateKey (reader.unsafeGet path) =
          true) ∧
    (options.unsafeOpt = true →
      reader.get path options = .ok (reader.unsafeGet path)) ∧
    (reader.getOrThrow p options = .error (.unformattedTemplateValue p) ↔
      options.unsafeOpt = false ∧
        containsRenderingObjectOpt reader.templateKey
          (reader.unsafeGet (some p)) = true) := by
  refine ⟨?_, ?_, ?_⟩
  · unfold ConfigurationReader.get
    rcases options with ⟨u⟩
    cases u <;>
      cases h : containsRenderingObjectOpt reader.templateKey (reader.unsafeGet path) <;>
        simp [h]
  · intro hu
    unfold ConfigurationReader.get
    simp [hu]
  · unfold ConfigurationReader.getOrThrow ConfigurationReader.get
    rcases options with ⟨u⟩
    cases u <;>
      cases h : containsRenderingObjectOpt reader.templateKey (reader.unsafeGet (some p)) <;>
        simp [h] <;>
          cases hv : reader.unsafeGet (some p) <;> simp [hv]

/-- A reader over the layer of concrete scenario 7: a single value that is a
template object. -/
def readerScenario7 : ConfigurationReader :=
  ConfigurationReader.ofRawConfigurations
    [{ sourceType := "file", source := some "causa.yaml",
       configuration :=
         .obj (.cons "a" (.obj (.cons "$format" (.str "tpl-secret-s") .nil)) .nil) }]

/-- C5 witness: on scenario 7, get at path a fails with
UnformattedTemplateValueError and the unsafe get returns the raw template
object. -/
theorem get_unformatted_template_guard_witness :
    readerScenario7.get (some "a") {} =
        .error (.unformattedTemplateValue "a") ∧
      readerScenario7.get (some "a") { unsafeOpt := true } =
        .ok (some (.obj (.cons "$format" (.str "tpl-secret-s") .nil))) := by
  constructor
  · exact (get_unformatted_template_guard readerScenario7 (some "a") "a" {}).1.mpr
      ⟨rfl, by decide⟩
  · have h := (get_unformatted_template_guard readerScenario7 (some "a") "a"
      { unsafeOpt := true }).2.1 rfl
    rw [h]
    decide

/-- C8: for every registered function, arguments and context,
getImplementations returns the implementations materialized from the argument
map whose supports(context) is true, in registration order; and
getImplementation returns the single supporting implementation when exactly
one supports the context, fails with NoImplementationFoundError when zero
support it, and with TooManyImplementationsError when more than one do. -/
theorem registry_selection {C R : Type} (registry : FunctionRegistry C R)
    (name : String) (rf : RegisteredFunction C R) (args : Value) (context : C)
    (hreg : findAssoc registry.functions name = some rf) :
    (registry.getImplementations name args context =
      (rf.implementations.map fun ctor => ctor args).filter
        fun implementation => implementation.supports context) ∧
    (∀ implementation,
      registry.getImplementation name args context = .ok implementation ↔
        registry.getImplementations name args context = [implementation]) ∧
    (registry.getImplementation name args context =
        .error (.noImplementationFound name) ↔
      registry.getImplementations name args context = []) ∧
    (registry.getImplementation name args context =
        .error (.tooManyImplementations name) ↔
      2 ≤ (registry.getImplementations name args context).length) := by
  refine ⟨?_, ?_, ?_, ?_⟩
  · unfold FunctionRegistry.getImplementations
    rw [hreg]
    rfl
  · intro implementation
    unfold FunctionRegistry.getImplementation
    cases himpls : registry.getImplementations name args context with
    | nil => simp
    | cons first rest =>
        cases rest with
        | nil => simp
        | cons second rest' => simp
  · unfold FunctionRegistry.getImplementation
    cases himpls : registry.getImplementations name args context with
    | nil => simp
    | cons first rest =>
        cases rest with
        | nil => simp
        | cons second rest' => simp
  · unfold FunctionRegistry.getImplementation
    cases himpls : registry.getImplementations name args context with
    | nil => simp
    | cons first rest =>
        cases rest with
        | nil => simp
        | cons second rest' => simp [Nat.succ_le_succ, Nat.succ_le_succ_iff]

/-- A concrete implementation pair for the registry witness: the first
supports the context value 1, the second the context value 2 (scenario 8). -/
def implementationOne : Implementation Int String :=
  { supports := fun n => n = 1, call := fun _ => "A" }

def implementationTwo : Implementation Int String :=
  { supports := fun n => n = 2, call := fun _ => "B" }

def registryScenario8 : FunctionRegistry Int String :=
  { functions :=
      [("Def",
        { validateDefinitionArguments := fun _ => .ok (),
          implementations :=
            [fun _ => implementationOne, fun _ => implementationTwo] })] }

/-- C8 witness: with context 1 exactly one registered implementation supports
the context and getImplementation returns it. -/
theorem registry_selection_witness :
    registryScenario8.getImplementation "Def" (.obj .nil) 1 =
      .ok implementationOne := by
  have h := registry_selection registryScenario8 "Def"
    { validateDefinitionArguments := fun _ => .ok (),
      implementations := [fun _ => implementationOne, fun _ => implementationTwo] }
    (.obj .nil) 1 rfl
  exact (h.2.1 implementationOne).mpr (by rw [h.1]; rfl)

theorem Fields.get?_append : (f g : Fields) → (k : String) →
    (f.append g).get? k =
      (match f.get? k with
      | some v => some v
      | none => g.get? k)
  | .nil, g, k => by simp [Fields.append, Fields.get?]
  | .cons k' v' rest, g, k => by
      by_cases h : k' = k <;>
        simp [Fields.append, Fields.get?, h, Fields.get?_append rest g k]

theorem Fields.get?_set_self : (f : Fields) → (k : String) → (v : Value) →
    (f.set k v).get? k = some v
  | .nil, k, v => by simp [Fields.set, Fields.get?]
  | .cons k' v' rest, k, v => by
      by_cases h : k' = k <;>
        simp [Fields.set, Fields.get?, h, Fields.get?_set_self rest k v]

theorem Fields.get?_set_other : (f : Fields) → (k k2 : String) → (v : Value) →
    k ≠ k2 → (f.set k v).get? k2 = f.get? k2
  | .nil, k, k2, v, h => by simp [Fields.set, Fields.get?, h]
  | .cons k' v' rest, k, k2, v, h => by
      by_cases h' : k' = k
      · subst h'
        simp [Fields.set, Fields.get?, h]
      · simp [Fields.set, Fields.get?, h']
        by_cases h'' : k' = k2 <;>
          simp [h'', Fields.get?_set_other rest k k2 v h]

theorem Fields.get?_eq_none_of_not_mem_keys : (f : Fields) → (k : String) →
    k ∉ keysOf f → f.get? k = none
  | .nil, k, h => by simp [Fields.get?]
  | .cons k' v' rest, k, h => by
      simp [keysOf] at h
      simp [Fields.get?, Fields.get?_eq_none_of_not_mem_keys rest k h.2]
      intro hh
      exact absurd hh.symm h.1

theorem mergeFields_get? : (g : Fields) → (f : Fields) → (k : String) →
    (keysOf g).Nodup →
    (mergeFields f g).get? k =
      (match f.get? k, g.get? k with
      | some objValue, some srcValue => some (mergeValue objValue srcValue)
      | some objValue, none => some objValue
      | none, other => other)
  | .nil, f, k, _ => by
      simp [mergeFields, Fields.get?]
      cases f.get? k <;> rfl
  | .cons key srcValue rest, f, k, hnodup => by
      rw [keysOf] at hnodup
      rw [List.nodup_cons] at hnodup
      have hrestnone : rest.get? key = none :=
        Fields.get?_eq_none_of_not_mem_keys rest key hnodup.1
      cases hf : f.get? key with
      | none =>
          rw [mergeFields, hf]
          rw [mergeFields_get? rest (f.append (.cons key srcValue .nil)) k hnodup.2]
          by_cases hk : k = key
          · subst hk
            rw [Fields.get?_append, hf, hrestnone]
            simp [Fields.get?, hf]
          · rw [Fields.get?_append]
            have h1 : (Fields.cons key srcValue Fields.nil).get? k = none := by
              simp [Fields.get?]
              intro h
              exact absurd h.symm hk
            rw [h1]
            have hg : (Fields.cons key srcValue rest).get? k = rest.get? k := by
              simp [Fields.get?]
              intro h
              exact absurd h.symm hk
            rw [hg]
            cases f.get? k <;> rfl
      | some objValue =>
          rw [mergeFields, hf]
          rw [mergeFields_get? rest (f.set key (mergeValue objValue srcValue)) k hnodup.2]
          by_cases hk : k = key
          · subst hk
            rw [Fields.get?_set_self, hrestnone]
            simp [Fields.get?, hf]
          · rw [Fields.get?_set_other _ _ _ _ fun h => hk h.symm]
            have hg : (Fields.cons key srcValue rest).get? k = rest.get? k := by
              simp [Fields.get?]
              intro h
              exact absurd h.symm hk
            rw [hg]

/-- The left layer of the C3 counterexample: a list-valued key. -/
def layerListLeft : RawConfiguration :=
  { sourceType := "file", source := some "one.yaml",
    configuration := .obj (.cons "a" (.arr (.cons (.num 1) .nil)) .nil) }

/-- The right layer of the C3 counterexample: the same key with a scalar. -/
def layerScalarRight : RawConfiguration :=
  { sourceType := "file", source := some "two.yaml",
    configuration := .obj (.cons "a" (.num 2) .nil) }

/-- C3 counterexample: merging a scalar right value onto a list left value
appends the scalar to the list instead of letting the right value win, so the
merge is not right-wins on mixed value types. -/
theorem merge_right_wins_counterexample :
    mergeRawConfiguration [layerListLeft, layerScalarRight] =
        .obj (.cons "a" (.arr (.cons (.num 1) (.cons (.num 2) .nil))) .nil) ∧
      mergeRawConfiguration [layerListLeft, layerScalarRight] ≠
        .obj (.cons "a" (.num 2) .nil) :=
  ⟨rfl, by decide⟩

/-- C3 amended: merging folds the layers left to right; on maps it is
recursive key by key; when the left value is a list the right value is
concatenated onto it (its elements when it is a list, the value itself as a
single trailing element otherwise); in every other case the right value wins.
The model is purely functional, so no input layer is ever mutated. -/
theorem merge_rule_characterization :
    (∀ f g : Fields, mergeValue (.obj f) (.obj g) = .obj (mergeFields f g)) ∧
    (∀ (f g : Fields) (k : String), (keysOf g).Nodup →
      (mergeFields f g).get? k =
        (match f.get? k, g.get? k with
        | some objValue, some srcValue => some (mergeValue objValue srcValue)
        | some objValue, none => some objValue
        | none, other => other)) ∧
    (∀ a b : Items, mergeValue (.arr a) (.arr b) = .arr (a.append b)) ∧
    (∀ (a : Items) (w : Value), (∀ b, w ≠ .arr b) →
      mergeValue (.arr a) w = .arr (a.append (.cons w .nil))) ∧
    (∀ v w : Value, (∀ a, v ≠ .arr a) → (∀ f g, ¬(v = .obj f ∧ w = .obj g)) →
      mergeValue v w = w) ∧
    (∀ (raw : RawConfiguration) (rest : List RawConfiguration) (conf : Value),
      mergeRawConfiguration (raw :: rest) conf =
        mergeRawConfiguration rest (mergeTop conf raw.configuration)) ∧
    (∀ cf sf : Fields, mergeTop (.obj cf) (.obj sf) = .obj (mergeFields cf sf)) := by
  refine ⟨?_, ?_, ?_, ?_, ?_, ?_, ?_⟩
  · intro f g
    simp [mergeValue, mergeCustomizer]
  · intro f g k h
    exact mergeFields_get? g f k h
  · intro a b
    simp [mergeValue, mergeCustomizer, Items.append, concatItems]
  · intro a w h
    cases w with
    | arr b => exact absurd rfl (h b)
    | null => simp [mergeValue, mergeCustomizer, concatItems]
    | bool b => simp [mergeValue, mergeCustomizer, concatItems]
    | num n => simp [mergeValue, mergeCustomizer, concatItems]
    | str s => simp [mergeValue, mergeCustomizer, concatItems]
    | obj f => simp [mergeValue, mergeCustomizer, concatItems]
  · intro v w harr hobj
    cases v with
    | arr a => exact absurd rfl (harr a)
    | obj f =>
        cases w with
        | obj g => exact absurd ⟨rfl, rfl⟩ (hobj f g)
        | null => simp [mergeValue, mergeCustomizer]
        | bool b => simp [mergeValue, mergeCustomizer]
        | num n => simp [mergeValue, mergeCustomizer]
        | str s => simp [mergeValue, mergeCustomizer]
        | arr b => simp [mergeValue, mergeCustomizer]
    | null => cases w <;> simp [mergeValue, mergeCustomizer]
    | bool b => cases w <;> simp [mergeValue, mergeCustomizer]
    | num n => cases w <;> simp [mergeValue, mergeCustomizer]
    | str s => cases w <;> simp [mergeValue, mergeCustomizer]
  · intro raw rest conf
    rfl
  · intro cf sf
    simp [mergeTop, sourceFields]

/-- C3 amended witness: the characterization applied to the counterexample
layers; the list-left append and a recursive map merge evaluated at concrete
inputs. -/
theorem merge_rule_characterization_witness :
    mergeValue (.arr (.cons (.num 1) .nil)) (.num 2) =
        .arr (.cons (.num 1) (.cons (.num 2) .nil)) ∧
      (mergeFields (.cons "a" (.num 1) .nil) (.cons "b" (.num 2) .nil)).get? "b" =
        some (.num 2) := by
  constructor
  · rw [merge_rule_characterization.2.2.2.1 (.cons (.num 1) .nil) (.num 2)
      (fun b => by simp)]
    rfl
  · rw [merge_rule_characterization.2.1 (.cons "a" (.num 1) .nil)
      (.cons "b" (.num 2) .nil) "b" (by decide)]
    rfl

/-- C9 amended: the backend value is the secret record backend field whenever
the key is present (the object spread lets it override the default even when
its value is null or empty), and the configured default backend otherwise;
the call fails with SecretBackendNotSpecifiedError exactly when that value is
absent or falsy; during dispatch NoImplementationFoundError is translated to
SecretBackendNotFoundError(backend), InvalidSecretDefinitionError is
re-thrown with the secret id filled in, and every other error propagates
unchanged. -/
theorem secret_backend_resolution (reader : ConfigurationReader)
    (callSecretFetch : Value → Except Err Value) (secretId : String)
    (record : Fields) (defaultBackend backendValue : Option Value)
    (h1 : reader.getOrThrow ("secrets." ++ secretId) {} = .ok (.obj record))
    (h2 : reader.get (some "causa.secrets.defaultBackend") {} =
      .ok defaultBackend)
    (hbv : backendValue =
      (match record.get? "backend" with
      | some v => some v
      | none => defaultBackend)) :
    (backendValue = none →
      WorkspaceContext.secret reader callSecretFetch secretId =
        .error (.secretBackendNotSpecified secretId)) ∧
    (∀ b, backendValue = some b → jsFalsy b = true →
      WorkspaceContext.secret reader callSecretFetch secretId =
        .error (.secretBackendNotSpecified secretId)) ∧
    (∀ b, backendValue = some b → jsFalsy b = false →
      ((∀ v, callSecretFetch
          (.obj (.cons "backend" b
            (.cons "configuration" (.obj (record.remove "backend")) .nil))) =
            .ok v →
        WorkspaceContext.secret reader callSecretFetch secretId = .ok v) ∧
      (∀ n, callSecretFetch
          (.obj (.cons "backend" b
            (.cons "configuration" (.obj (record.remove "backend")) .nil))) =
            .error (.noImplementationFound n) →
        WorkspaceContext.secret reader callSecretFetch secretId =
          .error (.secretBackendNotFound b)) ∧
      (∀ message sid, callSecretFetch
          (.obj (.cons "backend" b
            (.cons "configuration" (.obj (record.remove "backend")) .nil))) =
            .error (.invalidSecretDefinition message sid) →
        WorkspaceContext.secret reader callSecretFetch secretId =
          .error (.invalidSecretDefinition message (some secretId))) ∧
      (∀ e, callSecretFetch
          (.obj (.cons "backend" b
            (.cons "configuration" (.obj (record.remove "backend")) .nil))) =
            .error e →
        (∀ n, e ≠ .noImplementationFound n) →
        (∀ message sid, e ≠ .invalidSecretDefinition message sid) →
        WorkspaceContext.secret reader callSecretFetch secretId = .error e))) := by
  unfold WorkspaceContext.secret
  rw [h1]
  simp only [jsFalsy, jsTypeofObject, Bool.not_true, Bool.or_false,
    Bool.false_or, if_neg, Bool.false_eq_true, not_false_eq_true,
    reduceIte]
  rw [h2]
  simp only [spreadFields]
  rw [← hbv]
  refine ⟨?_, ?_, ?_⟩
  · intro hnone
    rw [hnone]
  · intro b hb hfalsy
    rw [hb]
    simp [hfalsy]
  · intro b hb hfalsy
    rw [hb]
    simp only [hfalsy, Bool.false_eq_true, reduceIte]
    refine ⟨?_, ?_, ?_, ?_⟩
    · intro v hcall
      rw [hcall]
    · intro n hcall
      rw [hcall]
    · intro message sid hcall
      rw [hcall]
    · intro e hcall hnotimpl hnotsecret
      rw [hcall]
      cases e with
      | noImplementationFound n => exact absurd rfl (hnotimpl n)
      | invalidSecretDefinition message sid => exact absurd rfl (hnotsecret message sid)
      | unformattedTemplateValue p => rfl
      | configurationValueNotFound p => rfl
      | circularTemplateReference p => rfl
      | templateRendering t c => rfl
      | referencedData f a => rfl
      | notDefined n => rfl
      | tooManyImplementations n => rfl
      | invalidFunctionArgument m => rfl
      | invalidProcessorOutput n => rfl
      | secretBackendNotFound b2 => rfl
      | secretBackendNotSpecified s2 => rfl
      | typeError m => rfl
      | outOfFuel => rfl

/-- The workspace configuration of the C9 counterexample: a default secret
backend is configured, and the secret record carries an explicit null backend
field. -/
def readerNullBackend : ConfigurationReader :=
  ConfigurationReader.ofRawConfigurations
    [{ sourceType := "file", source := some "causa.yaml",
       configuration :=
         .obj (.cons "causa"
           (.obj (.cons "secrets"
             (.obj (.cons "defaultBackend" (.str "d") .nil)) .nil))
           (.cons "secrets"
             (.obj (.cons "s"
               (.obj (.cons "backend" .null (.cons "k" (.str "v") .nil)))
               .nil))
             .nil)) }]

/-- C9 counterexample: with causa.secrets.defaultBackend set to the truthy
string d and the secret record carrying backend null, secret(s) fails with
SecretBackendNotSpecifiedError even though a default backend is set: the
record field overrides the default through the object spread instead of
falling back. -/
theorem secret_null_backend_counterexample :
    WorkspaceContext.secret readerNullBackend (fun _ => .ok (.str "OK")) "s" =
        .error (.secretBackendNotSpecified "s") ∧
      readerNullBackend.get (some "causa.secrets.defaultBackend") {} =
        .ok (some (.str "d")) ∧
      jsFalsy (.str "d") = false :=
  ⟨rfl, rfl, rfl⟩

/-- The workspace configuration of concrete scenario 4: a secret with an
unknown backend. -/
def readerUnknownBackend : ConfigurationReader :=
  ConfigurationReader.ofRawConfigurations
    [{ sourceType := "file", source := some "causa.yaml",
       configuration :=
         .obj (.cons "secrets"
           (.obj (.cons "s2"
             (.obj (.cons "backend" (.str "unknown") .nil)) .nil))
           .nil) }]

/-- C9 witness: on scenario 4, the registry reports no implementation for the
unknown backend and secret(s2) fails with SecretBackendNotFoundError. -/
theorem secret_backend_resolution_witness :
    WorkspaceContext.secret readerUnknownBackend
        (fun _ => .error (.noImplementationFound "SecretFetch")) "s2" =
      .error (.secretBackendNotFound (.str "unknown")) := by
  have h := secret_backend_resolution readerUnknownBackend
    (fun _ => .error (.noImplementationFound "SecretFetch")) "s2"
    (.cons "backend" (.str "unknown") .nil) none (some (.str "unknown"))
    rfl rfl rfl
  exact ((h.2.2 (.str "unknown") rfl rfl).2.1 "SecretFetch") rfl

/-- C10 amended: for each processor instruction the named function is
validated and called by name (any validation, lookup or call error aborts the
pipeline unchanged); the check on the output is
output.configuration instanceof Object, which accepts any non-primitive
configuration value, arrays included, and fails with
InvalidProcessorOutputError(name) for a missing or primitive configuration
property, while on a null output the property access itself throws a
TypeError that aborts init unchanged; on success the configuration value is
merged as a new processor-sourced layer whose source is the processor name
and the instruction is appended to the history, and init applies the
instructions in order. -/
theorem processor_pipeline (registry : FunctionRegistry Value (Except Err Value))
    (context : WorkspaceContextModel) (processor : ProcessorInstruction) :
    (∀ e, callByName registry context.configuration.configuration
        processor.name (processor.args.getD (.obj .nil)) = .error e →
      WorkspaceContext.withProcessor registry context processor = .error e) ∧
    (∀ output, callByName registry context.configuration.configuration
        processor.name (processor.args.getD (.obj .nil)) = .ok output →
      ((∀ e2, jsGetProp output "configuration" = .error e2 →
          WorkspaceContext.withProcessor registry context processor =
            .error e2) ∧
        (jsGetProp output "configuration" = .ok none →
          WorkspaceContext.withProcessor registry context processor =
            .error (.invalidProcessorOutput processor.name)) ∧
        (∀ configurationField,
          jsGetProp output "configuration" = .ok (some configurationField) →
          instanceofObject configurationField = false →
          WorkspaceContext.withProcessor registry context processor =
            .error (.invalidProcessorOutput processor.name)) ∧
        (∀ configurationField,
          jsGetProp output "configuration" = .ok (some configurationField) →
          instanceofObject configurationField = true →
          WorkspaceContext.withProcessor registry context processor =
            .ok { configuration :=
                    context.configuration.mergedWith
                      [makeProcessorConfiguration processor.name
                        configurationField],
                  processors := context.processors ++ [processor] }))) ∧
    (∀ context2,
      WorkspaceContext.withProcessor registry context processor = .ok context2 →
      ∀ rest, WorkspaceContext.initProcessors registry context
          (processor :: rest) =
        WorkspaceContext.initProcessors registry context2 rest) ∧
    (∀ e,
      WorkspaceContext.withProcessor registry context processor = .error e →
      ∀ rest, WorkspaceContext.initProcessors registry context
          (processor :: rest) = .error e) := by
  refine ⟨?_, ?_, ?_, ?_⟩
  · intro e hcall
    unfold WorkspaceContext.withProcessor
    rw [hcall]
  · intro output hcall
    refine ⟨?_, ?_, ?_, ?_⟩
    · intro e2 herr2
      unfold WorkspaceContext.withProcessor
      rw [hcall]
      simp only [herr2]
    · intro hnone
      unfold WorkspaceContext.withProcessor
      rw [hcall]
      simp only [hnone]
    · intro configurationField hsome hprim
      unfold WorkspaceContext.withProcessor
      rw [hcall]
      simp only [hsome, hprim, Bool.false_eq_true, reduceIte]
    · intro configurationField hsome hobj
      unfold WorkspaceContext.withProcessor
      rw [hcall]
      simp only [hsome, hobj, reduceIte]
  · intro context2 hok rest
    simp only [WorkspaceContext.initProcessors]
    rw [hok]
  · intro e herr rest
    simp only [WorkspaceContext.initProcessors]
    rw [herr]

/-- The registry of the C10 counterexample: a single processor P whose output
is a map with a list-valued configuration field. -/
def processorRegistry : FunctionRegistry Value (Except Err Value) :=
  { functions :=
      [("P",
        { validateDefinitionArguments := fun _ => .ok (),
          implementations :=
            [fun _ =>
              { supports := fun _ => true,
                call := fun _ =>
                  .ok (.obj (.cons "configuration"
                    (.arr (.cons (.num 1) .nil)) .nil)) }] })] }

/-- An initialized context over an empty configuration, before processors. -/
def emptyContext : WorkspaceContextModel :=
  { configuration := ConfigurationReader.ofRawConfigurations [],
    processors := [] }

/-- C10 counterexample: a processor whose output configuration field is a
list (not a map) is accepted by the instanceof Object check instead of
failing with InvalidProcessorOutputError; the list is merged as a
processor-sourced layer (its elements entering the configuration under index
keys) and the instruction is appended to the history. -/
theorem processor_array_output_counterexample :
    WorkspaceContext.initProcessors processorRegistry emptyContext
        [{ name := "P", args := none }] =
      .ok { configuration :=
              { templateKey := "$format",
                rawConfigurations :=
                  [{ sourceType := "processor", source := some "P",
                     configuration := .arr (.cons (.num 1) .nil) }],
                configuration := .obj (.cons "0" (.num 1) .nil) },
            processors := [{ name := "P", args := none }] } ∧
      WorkspaceContext.initProcessors processorRegistry emptyContext
          [{ name := "P", args := none }] ≠
        .error (.invalidProcessorOutput "P") :=
  ⟨rfl, by decide⟩

/-- The registry of the C10 null-output witness branch: a processor Q whose
output is null, on which the configuration property access throws. -/
def processorRegistryNull : FunctionRegistry Value (Except Err Value) :=
  { functions :=
      [("Q",
        { validateDefinitionArguments := fun _ => .ok (),
          implementations :=
            [fun _ =>
              { supports := fun _ => true,
                call := fun _ => .ok .null }] })] }

/-- C10 witness: the pipeline characterization applied to the counterexample
processor (array-valued configuration accepted and merged), and to a
null-returning processor, whose property access TypeError aborts the
pipeline unchanged. -/
theorem processor_pipeline_witness :
    WorkspaceContext.withProcessor processorRegistry emptyContext
        { name := "P", args := none } =
      .ok { configuration :=
              emptyContext.configuration.mergedWith
                [makeProcessorConfiguration "P" (.arr (.cons (.num 1) .nil))],
            processors := [{ name := "P", args := none }] } ∧
    WorkspaceContext.withProcessor processorRegistryNull emptyContext
        { name := "Q", args := none } =
      .error (.typeError
        "Cannot read properties of null (reading configuration)") := by
  have h := processor_pipeline processorRegistry emptyContext
    { name := "P", args := none }
  have hq := processor_pipeline processorRegistryNull emptyContext
    { name := "Q", args := none }
  constructor
  · exact (h.2.1 (.obj (.cons "configuration" (.arr (.cons (.num 1) .nil)) .nil))
      rfl).2.2.2 (.arr (.cons (.num 1) .nil)) rfl rfl
  · exact (hq.2.1 .null rfl).1
      (.typeError "Cannot read properties of null (reading configuration)")
      rfl

/- The walker leaves a value without template objects unchanged (and calls no
transform), whichever pass is running. -/
mutual
theorem transformTemplates_no_template {σ : Type} (templateKey : String)
    (transform : σ → String → Except Err (σ × Option Value)) :
    (v : Value) → (s : σ) → containsRenderingObject templateKey v = false →
    transformTemplates templateKey transform s v = .ok (s, v)
  | .null, s, _ => by simp [transformTemplates]
  | .bool b, s, _ => by simp [transformTemplates]
  | .num n, s, _ => by simp [transformTemplates]
  | .str s2, s, _ => by simp [transformTemplates]
  | .arr items, s, h => by
      rw [containsRenderingObject] at h
      rw [transformTemplates,
        transformTemplatesItems_no_template templateKey transform items s h]
  | .obj fields, s, h => by
      rw [containsRenderingObject] at h
      by_cases hk : keysOf fields = [templateKey]
      · rw [if_pos hk] at h
        exact absurd h (by simp)
      · rw [if_neg hk] at h
        rw [transformTemplates, if_neg hk,
          transformTemplatesFields_no_template templateKey transform fields s h]

theorem transformTemplatesItems_no_template {σ : Type} (templateKey : String)
    (transform : σ → String → Except Err (σ × Option Value)) :
    (items : Items) → (s : σ) →
    containsRenderingObjectItems templateKey items = false →
    transformTemplatesItems templateKey transform s items = .ok (s, items)
  | .nil, s, _ => by simp [transformTemplatesItems]
  | .cons v rest, s, h => by
      rw [containsRenderingObjectItems] at h
      rw [Bool.or_eq_false_iff] at h
      simp only [transformTemplatesItems,
        transformTemplates_no_template templateKey transform v s h.1,
        transformTemplatesItems_no_template templateKey transform rest s h.2]

theorem transformTemplatesFields_no_template {σ : Type} (templateKey : String)
    (transform : σ → String → Except Err (σ × Option Value)) :
    (fields : Fields) → (s : σ) →
    containsRenderingObjectFields templateKey fields = false →
    transformTemplatesFields templateKey transform s fields = .ok (s, fields)
  | .nil, s, _ => by simp [transformTemplatesFields]
  | .cons k v rest, s, h => by
      rw [containsRenderingObjectFields] at h
      rw [Bool.or_eq_false_iff] at h
      simp only [transformTemplatesFields,
        transformTemplates_no_template templateKey transform v s h.1,
        transformTemplatesFields_no_template templateKey transform rest s h.2]
end

/-- fetchData makes no invocation on a cache whose entry lists are all empty
and returns it unchanged. -/
theorem fetchData_empty_entries (fetchers : DataFetchers) :
    (cache : DataCache) → (∀ pair ∈ cache, pair.2 = ([] : List ReferencedDataEntry)) →
    fetchData fetchers cache = .ok (cache, [], [])
  | [], _ => by simp [fetchData]
  | (name, entries) :: rest, h => by
      have he : entries = [] := h (name, entries) (List.mem_cons_self _ _)
      subst he
      rw [fetchData]
      rw [fetchData_empty_entries fetchers rest
        fun pair hp => h pair (List.mem_cons_of_mem _ hp)]
      rfl

/-- C7: rendering a value that contains no template object returns it
unchanged (the output is the deep clone of the input, which the pure model
expresses as structural equality; the input is never mutated), the render
call succeeds, and no fetcher is invoked. -/
theorem render_no_templates (templateKey : String) (compile : Compile)
    (fetchers : DataFetchers) (v : Value)
    (h : containsRenderingObject templateKey v = false) :
    render templateKey compile fetchers (some v) = .ok (some v, [], []) := by
  have h1 := transformTemplates_no_template templateKey
    (fun c tpl =>
      match runCacheBuilders (fetchers.map (·.1)) (compile tpl) c with
      | .error e => .error e
      | .ok c' => .ok (c', none))
    v (fetchers.map fun nf => (nf.1, [])) h
  have h2 := fetchData_empty_entries fetchers
    (fetchers.map fun nf => (nf.1, []))
    (by intro pair hp
        rw [List.mem_map] at hp
        obtain ⟨nf, _, hnf⟩ := hp
        rw [← hnf])
  have h3 := transformTemplates_no_template templateKey
    (fun u tpl =>
      match runCacheDataFinders (fetchers.map fun nf => (nf.1, []))
          (compile tpl) with
      | .error e => .error e
      | .ok s => .ok (u, some (.str s)))
    v () h
  unfold render discoverReferencedData substituteTemplates
  simp only [h1, h2, h3]

/-- C7 witness: a concrete template-free value rendered unchanged with no
invocation. -/
theorem render_no_templates_witness :
    render "$format" (fun s => [.lit s])
        [("f", fun _ => .ok (some (.str "x"), []))]
        (some (.obj (.cons "a" (.num 1)
          (.cons "b" (.arr (.cons (.str "y") .nil)) .nil)))) =
      .ok (some (.obj (.cons "a" (.num 1)
        (.cons "b" (.arr (.cons (.str "y") .nil)) .nil))), [], []) :=
  render_no_templates "$format" (fun s => [.lit s])
    [("f", fun _ => .ok (some (.str "x"), []))]
    (.obj (.cons "a" (.num 1) (.cons "b" (.arr (.cons (.str "y") .nil)) .nil)))
    (by decide)

theorem findAssoc_contains {α : Type} :
    (l : List (String × α)) → (k : String) → (x : α) →
    findAssoc l k = some x → (l.map (·.1)).contains k = true
  | [], k, x, h => by simp [findAssoc] at h
  | (k', v') :: rest, k, x, h => by
      by_cases hk : k' = k
      · subst hk
        simp [List.contains]
      · rw [findAssoc, if_neg hk] at h
        simp only [List.map, List.contains_cons]
        rw [Bool.or_eq_true]
        exact Or.inr (findAssoc_contains rest k x h)

/-- Registering one (fetcher, args) reference into the freshly initialized
cache. -/
theorem add_map_empty {α : Type} :
    (sub : List (String × α)) → (f : String) → (args : List Value) →
    DataCache.add (sub.map fun nf => (nf.1, [])) f args =
      sub.map fun nf =>
        (nf.1, if nf.1 = f then [⟨args, none⟩] else [])
  | [], f, args => by simp [DataCache.add]
  | (n, x) :: rest, f, args => by
      have ih := add_map_empty rest f args
      simp only [DataCache.add, List.map] at ih ⊢
      by_cases hn : n = f
      · simp [hn, cacheBuilderAdd, ih]
        intro a b _
        by_cases ha : a = f <;> simp [ha]
      · simp [hn, cacheBuilderAdd, ih]
        intro a b _
        by_cases ha : a = f <;> simp [ha]

theorem findAssoc_map_of_found {α β : Type} (g : String → β) :
    (sub : List (String × α)) → (k : String) → (x : α) →
    findAssoc sub k = some x →
    findAssoc (sub.map fun nf => (nf.1, g nf.1)) k = some (g k)
  | [], k, x, h => by simp [findAssoc] at h
  | (k', v') :: rest, k, x, h => by
      by_cases hk : k' = k
      · subst hk
        simp [findAssoc]
      · rw [findAssoc, if_neg hk] at h
        simp only [List.map]
        rw [findAssoc, if_neg hk]
        exact findAssoc_map_of_found g rest k x h

/-- fetchData over a cache holding a single referenced pair under fetcher f,
when the fetcher resolves: every entry is invoked once and populated with the
resolved data. -/
theorem fetchData_single_ok (fetchers : DataFetchers) (fetch : DataFetcher)
    (f : String) (args : List Value) (data : Option Value) (tr : RequestTrace)
    (hf : findAssoc fetchers f = some fetch)
    (hfetch : fetch args = .ok (data, tr)) :
    (sub : List (String × DataFetcher)) →
    ∃ log trace,
      fetchData fetchers
          (sub.map fun nf => (nf.1, if nf.1 = f then [⟨args, none⟩] else [])) =
        .ok ((sub.map fun nf =>
          (nf.1, if nf.1 = f then [⟨args, data⟩] else [])), log, trace)
  | [] => ⟨[], [], by simp [fetchData]⟩
  | (n, dfetch) :: rest => by
      obtain ⟨log, trace, ih⟩ :=
        fetchData_single_ok fetchers fetch f args data tr hf hfetch rest
      by_cases hn : n = f
      · subst hn
        refine ⟨(n, args) :: log, (tr ++ []) ++ trace, ?_⟩
        simp only [List.map, fetchData, fetchEntries, hf, hfetch, ih]
        simp
      · refine ⟨log, trace, ?_⟩
        simp only [List.map, if_neg hn, fetchData, fetchEntries, ih]
        simp [hn]

/-- fetchData over the same single-pair cache when the fetcher rejects: the
error propagates unchanged. -/
theorem fetchData_single_error (fetchers : DataFetchers) (fetch : DataFetcher)
    (f : String) (args : List Value) (e : Err)
    (hf : findAssoc fetchers f = some fetch)
    (hfetch : fetch args = .error e) :
    (sub : List (String × DataFetcher)) → (hmem : f ∈ sub.map (·.1)) →
    fetchData fetchers
        (sub.map fun nf => (nf.1, if nf.1 = f then [⟨args, none⟩] else [])) =
      .error e
  | [], hmem => by simp at hmem
  | (n, dfetch) :: rest, hmem => by
      by_cases hn : n = f
      · subst hn
        simp only [List.map, if_pos rfl, fetchData, fetchEntries, hf, hfetch]
      · simp only [List.map, List.mem_cons] at hmem
        rcases hmem with hmem | hmem
        · exact absurd hmem.symm hn
        · simp only [List.map, if_neg hn, fetchData, fetchEntries,
            fetchData_single_error fetchers fetch f args e hf hfetch rest hmem]

theorem findAssoc_mem {α : Type} :
    (l : List (String × α)) → (k : String) → (x : α) →
    findAssoc l k = some x → k ∈ l.map (·.1)
  | [], k, x, h => by simp [findAssoc] at h
  | (k', v') :: rest, k, x, h => by
      by_cases hk : k' = k
      · subst hk
        simp
      · rw [findAssoc, if_neg hk] at h
        simp only [List.map, List.mem_cons]
        exact Or.inr (findAssoc_mem rest k x h)

/-- The fetcher table of the C2 counterexample: a single fetcher resolving to
undefined. -/
def fetchersUndefined : DataFetchers :=
  [("f", fun _ => .ok (none, []))]

/-- The compile table of the C2 counterexample: the template tagged T calls
f with the literal argument x. -/
def compileCallF : Compile :=
  fun s => if s = "T" then [.call "f" [.str "x"]] else [.lit s]

/-- C2 counterexample: when the fetcher-provided value for a template object
is undefined, the substitution pass does not leave the template object intact:
the render call fails with TemplateRenderingError wrapping
ReferencedDataError, exactly as for a pair absent from the cache. -/
theorem render_undefined_not_left_intact_counterexample :
    render "$format" compileCallF fetchersUndefined
        (some (.obj (.cons "k"
          (.obj (.cons "$format" (.str "T") .nil)) .nil))) =
      .error (.templateRendering "T" (.referencedData "f" [.str "x"])) :=
  rfl

/-- C2 amended: during the substitution pass, a template object whose fetcher
resolved to undefined is treated exactly like a (fetcher, args) pair absent
from the result cache: the cache-data finder reports ReferencedDataError in
both situations (an absent pair being the programming-error case), the walker
wraps it as TemplateRenderingError, and the render call fails instead of
leaving the template object intact. -/
theorem substitution_undefined_reports_referenced_data
    (templateKey : String) (compile : Compile) (fetchers : DataFetchers)
    (fetch : DataFetcher) (f : String) (args : List Value) (tr : RequestTrace)
    (tplStr : String)
    (hf : findAssoc fetchers f = some fetch)
    (hfetch : fetch args = .ok (none, tr))
    (hcompile : compile tplStr = [.call f args]) :
    render templateKey compile fetchers
        (some (.obj (.cons templateKey (.str tplStr) .nil))) =
      .error (.templateRendering tplStr (.referencedData f args)) ∧
    (∀ (cache : DataCache) (f2 : String) (args2 : List Value)
      (entries : List ReferencedDataEntry),
      findAssoc cache f2 = some entries →
      entries.find? (fun e => e.args = args2) = none →
      cacheDataFinder cache f2 args2 = .error (.referencedData f2 args2)) ∧
    (∀ (cache : DataCache) (f2 : String) (args2 : List Value)
      (entries : List ReferencedDataEntry) (entry : ReferencedDataEntry),
      findAssoc cache f2 = some entries →
      entries.find? (fun e => e.args = args2) = some entry →
      entry.data = none →
      cacheDataFinder cache f2 args2 = .error (.referencedData f2 args2)) := by
  refine ⟨?_, ?_, ?_⟩
  · have hkeys : keysOf (Fields.cons templateKey (.str tplStr) .nil) =
        [templateKey] := rfl
    have hcontains := findAssoc_contains fetchers f fetch hf
    have hdisc : transformTemplates templateKey
        (fun c tpl =>
          match runCacheBuilders (fetchers.map (·.1)) (compile tpl) c with
          | .error e => .error e
          | .ok c' => .ok (c', none))
        (fetchers.map fun nf => (nf.1, []))
        (.obj (.cons templateKey (.str tplStr) .nil)) =
        .ok ((fetchers.map fun nf =>
          (nf.1, if nf.1 = f then [⟨args, none⟩] else [])),
          .obj (.cons templateKey (.str tplStr) .nil)) := by
      rw [transformTemplates, if_pos hkeys]
      simp only [Fields.firstValue, jsStr, hcompile, runCacheBuilders,
        hcontains, if_pos]
      rw [add_map_empty fetchers f args]
    obtain ⟨log, trace, hfd⟩ :=
      fetchData_single_ok fetchers fetch f args none tr hf hfetch fetchers
    have hsub : transformTemplates templateKey
        (fun (u : Unit) tpl =>
          match runCacheDataFinders (fetchers.map fun nf =>
              (nf.1, if nf.1 = f then [⟨args, none⟩] else []))
              (compile tpl) with
          | .error e => .error e
          | .ok s => .ok (u, some (.str s)))
        () (.obj (.cons templateKey (.str tplStr) .nil)) =
        .error (.templateRendering tplStr (.referencedData f args)) := by
      have hfind := findAssoc_map_of_found
        (fun n => if n = f then [(⟨args, none⟩ : ReferencedDataEntry)] else [])
        fetchers f fetch hf
      have hfinder : cacheDataFinder
          (fetchers.map fun nf =>
            (nf.1, if nf.1 = f then [⟨args, none⟩] else [])) f args =
          .error (.referencedData f args) := by
        unfold cacheDataFinder
        simp only [hfind]
        simp [List.find?]
      rw [transformTemplates, if_pos hkeys]
      simp only [Fields.firstValue, jsStr, hcompile, runCacheDataFinders,
        hfinder]
    unfold render discoverReferencedData substituteTemplates
    simp only [hdisc, hfd, hsub]
  · intro cache f2 args2 entries hfind hnone
    unfold cacheDataFinder
    simp only [hfind, hnone]
  · intro cache f2 args2 entries entry hfind hsome hdata
    unfold cacheDataFinder
    simp only [hfind, hsome, hdata]

/-- C2 amended witness: the amended statement applied to the concrete
undefined-resolving fetcher. -/
theorem substitution_undefined_reports_referenced_data_witness :
    render "$format" compileCallF fetchersUndefined
        (some (.obj (.cons "$format" (.str "T") .nil))) =
      .error (.templateRendering "T" (.referencedData "f" [.str "x"])) :=
  (substitution_undefined_reports_referenced_data "$format" compileCallF
    fetchersUndefined (fun _ => .ok (none, [])) "f" [.str "x"] [] "T"
    rfl rfl rfl).1

def tplObj (s : String) : Value := .obj (.cons "$format" (.str s) .nil)

def readerOverlap : ConfigurationReader :=
  ConfigurationReader.ofRawConfigurations
    [{ sourceType := "file", source := some "causa.yaml",
       configuration :=
         .obj (.cons "x" (tplObj "Tx")
           (.cons "ab" (tplObj "Tab")
             (.cons "a" (.num 42) .nil))) }]

def compileOverlap : Compile := fun s =>
  if s = "Tx" then [.call "configuration" [.str "ab"]]
  else if s = "Tab" then [.call "configuration" [.str "a"]]
  else [.lit s]

/-- C1 counterexample: rendering x succeeds with the value 42 although during
the run a nested template requested the path a while ab was in the chain of
paths being rendered, and a is a string prefix of ab (the recorded trace pair
is the stack [ab] with request a). The guard compares in the other direction:
it only rejects a request that extends a chain path. -/
theorem circular_guard_counterexample :
    ConfigurationReader.getAndRender readerOverlap compileOverlap [] 4
        (some "x") =
      .ok (some (.str "42"), [("configuration", [.str "ab"])],
        [([], "ab"), (["ab"], "a")]) ∧
    jsStartsWith "ab" "a" = true :=
  ⟨rfl, rfl⟩

theorem findAssoc_setAssoc_self {α : Type} :
    (l : List (String × α)) → (k : String) → (v : α) →
    findAssoc (setAssoc l k v) k = some v
  | [], k, v => by simp [setAssoc, findAssoc]
  | (k', v') :: rest, k, v => by
      by_cases hk : k' = k
      · subst hk
        simp [setAssoc, findAssoc]
      · simp only [setAssoc, if_neg hk, findAssoc]
        exact findAssoc_setAssoc_self rest k v

/-- C1 amended: the injected configuration fetcher fails the call with
CircularTemplateReferenceError(p) whenever the nested template requests a
path p that extends (string-startsWith) some path in the chain of paths
currently being rendered: the check is chain-path-is-a-prefix-of-request,
not request-is-a-prefix-of-chain-path, and a request that is a strict prefix
of a chain path is not rejected by the guard (the counterexample run above
even succeeds). -/
theorem circular_reference_guard (compile : Compile)
    (reader : ConfigurationReader) (dataFetchers : DataFetchers) (fuel : Nat)
    (path : Option String) (pathStack : List String) (p tplStr : String)
    (hv : reader.unsafeGet path =
      some (.obj (.cons reader.templateKey (.str tplStr) .nil)))
    (hcompile : compile tplStr = [.call "configuration" [.str p]])
    (hguard : (pathStack.any fun q => jsStartsWith p q) = true) :
    getAndRenderWithStack compile reader dataFetchers (fuel + 1) path
        pathStack =
      .error (.circularTemplateReference p) := by
  rw [getAndRenderWithStack]
  rw [hv]
  set configurationFetcher : DataFetcher := fun args =>
    match configurationFetcherPath args with
    | none => .error (.notDefined "configuration path is not a string")
    | some p2 =>
        if pathStack.any fun q => jsStartsWith p2 q then
          .error (.circularTemplateReference p2)
        else
          match getAndRenderWithStack compile reader dataFetchers fuel
              (some p2) (pathStack ++ [p2]) with
          | .error e => .error e
          | .ok (v, _, trace) => .ok (v, (pathStack, p2) :: trace) with hcf
  set fetchers : DataFetchers :=
    setAssoc dataFetchers "configuration" configurationFetcher with hfs
  have hf : findAssoc fetchers "configuration" = some configurationFetcher :=
    findAssoc_setAssoc_self dataFetchers "configuration" configurationFetcher
  have hkeys : keysOf (Fields.cons reader.templateKey (.str tplStr) .nil) =
      [reader.templateKey] := rfl
  have hcontains := findAssoc_contains fetchers "configuration"
    configurationFetcher hf
  have hdisc : transformTemplates reader.templateKey
      (fun c tpl =>
        match runCacheBuilders (fetchers.map (·.1)) (compile tpl) c with
        | .error e => .error e
        | .ok c' => .ok (c', none))
      (fetchers.map fun nf => (nf.1, []))
      (.obj (.cons reader.templateKey (.str tplStr) .nil)) =
      .ok ((fetchers.map fun nf =>
        (nf.1, if nf.1 = "configuration" then [⟨[.str p], none⟩] else [])),
        .obj (.cons reader.templateKey (.str tplStr) .nil)) := by
    rw [transformTemplates, if_pos hkeys]
    simp only [Fields.firstValue, jsStr, hcompile, runCacheBuilders,
      hcontains, if_pos]
    rw [add_map_empty fetchers "configuration" [.str p]]
  have hfetch : configurationFetcher [.str p] =
      .error (.circularTemplateReference p) := by
    rw [hcf]
    simp only [configurationFetcherPath, List.head?]
    rw [hguard]
    simp
  have hfd := fetchData_single_error fetchers configurationFetcher
    "configuration" [.str p] (.circularTemplateReference p) hf hfetch fetchers
    (findAssoc_mem fetchers "configuration" configurationFetcher hf)
  unfold render discoverReferencedData
  simp only [hdisc, hfd]

/-- A reader holding a single template for the C1 amended witness. -/
def readerGuardWitness : ConfigurationReader :=
  ConfigurationReader.ofRawConfigurations
    [{ sourceType := "file", source := some "causa.yaml",
       configuration := .obj (.cons "x" (tplObj "Tw") .nil) }]

/-- C1 amended witness: a template requesting a.b while a is in the chain
fails with CircularTemplateReferenceError(a.b). -/
theorem circular_reference_guard_witness :
    getAndRenderWithStack
        (fun s =>
          if s = "Tw" then [.call "configuration" [.str "a.b"]] else [.lit s])
        readerGuardWitness [] 1 (some "x") ["a"] =
      .error (.circularTemplateReference "a.b") :=
  circular_reference_guard
    (fun s =>
      if s = "Tw" then [.call "configuration" [.str "a.b"]] else [.lit s])
    readerGuardWitness [] 0 (some "x") ["a"] "a.b" "Tw" rfl (by decide)
    (by decide)

/- The (fetcher, args) pairs referenced by the templates of a value, in
discovery order (with multiplicity): what pass 1 feeds to the cache
builders. -/
mutual
def referencedCalls (templateKey : String) (compile : Compile) :
    Value → List (String × List Value)
  | .obj fields =>
      if keysOf fields = [templateKey] then
        chunkCalls (compile (jsStr fields.firstValue))
      else referencedCallsFields templateKey compile fields
  | .arr items => referencedCallsItems templateKey compile items
  | _ => []

def referencedCallsItems (templateKey : String) (compile : Compile) :
    Items → List (String × List Value)
  | .nil => []
  | .cons v rest =>
      referencedCalls templateKey compile v ++
        referencedCallsItems templateKey compile rest

def referencedCallsFields (templateKey : String) (compile : Compile) :
    Fields → List (String × List Value)
  | .nil => []
  | .cons _ v rest =>
      referencedCalls templateKey compile v ++
        referencedCallsFields templateKey compile rest
end

/-- The (fetcher, args) pairs held by the data cache, in cache order. -/
def cachePairs : DataCache → List (String × List Value)
  | [] => []
  | (n, entries) :: rest =>
      (entries.map fun e => (n, e.args)) ++ cachePairs rest

/-- How many times the cache holds the pair. -/
def pairCount (cache : DataCache) (p : String × List Value) : Nat :=
  (cachePairs cache).count p

/-- Every pair is held at most once (the structural-equality dedup of the
cache builders). -/
def cacheDedup (cache : DataCache) : Prop :=
  ∀ p, pairCount cache p ≤ 1

theorem cachePairs_init {α : Type} :
    (fetchers : List (String × α)) →
    cachePairs (fetchers.map fun nf => (nf.1, [])) = []
  | [] => rfl
  | _ :: rest => by
      simp only [List.map, cachePairs, List.map_nil, List.nil_append]
      exact cachePairs_init rest

theorem count_map_entries (n f : String) (args : List Value) :
    (entries : List ReferencedDataEntry) →
    ((entries.map fun e => (n, e.args)).count (f, args)) =
      if n = f then (entries.map fun e => e.args).count args else 0
  | [] => by by_cases h : n = f <;> simp [h]
  | e :: rest => by
      simp only [List.map, List.count_cons, count_map_entries n f args rest]
      by_cases h : n = f
      · subst h
        by_cases ha : e.args = args <;> simp [ha, Prod.ext_iff]
      · have hne : ((n, e.args) : String × List Value) ≠ (f, args) := by
          intro hh
          exact h (congrArg Prod.fst hh)
        simp [h, hne]

theorem count_cacheBuilderAdd (args b : List Value)
    (entries : List ReferencedDataEntry) :
    ((cacheBuilderAdd entries args).map fun e => e.args).count b =
      if b = args ∧ (entries.map fun e => e.args).count args = 0 then
        (entries.map fun e => e.args).count b + 1
      else (entries.map fun e => e.args).count b := by
  unfold cacheBuilderAdd
  by_cases hany : entries.any fun e => e.args = args
  · rw [if_pos hany]
    have hmem : args ∈ entries.map fun e => e.args := by
      rw [List.any_eq_true] at hany
      obtain ⟨e, he, harg⟩ := hany
      rw [decide_eq_true_eq] at harg
      exact harg ▸ List.mem_map_of_mem _ he
    have hcount : (entries.map fun e => e.args).count args ≠ 0 := by
      intro h0
      rw [← List.count_pos_iff] at hmem
      omega
    simp [hcount]
  · rw [if_neg hany]
    have hnomem : args ∉ entries.map fun e => e.args := by
      intro hmem
      rw [List.mem_map] at hmem
      obtain ⟨e, he, harg⟩ := hmem
      rw [List.any_eq_true] at hany
      exact hany ⟨e, he, by rw [decide_eq_true_eq]; exact harg⟩
    have hcount : (entries.map fun e => e.args).count args = 0 :=
      List.count_eq_zero.mpr hnomem
    rw [List.map_append, List.count_append]
    by_cases hb : b = args
    · subst hb
      simp [hcount]
    · have hne2 : args ≠ b := fun hh => hb hh.symm
      simp [hcount, hb, hne2]

theorem DataCache.add_of_not_mem :
    (cache : DataCache) → (f : String) → (args : List Value) →
    f ∉ cache.map (·.1) → DataCache.add cache f args = cache
  | [], _, _, _ => rfl
  | (n, es) :: rest, f, args, h => by
      simp only [List.map, List.mem_cons] at h
      push_neg at h
      have hn : n ≠ f := fun hh => h.1 hh.symm
      simp only [DataCache.add, List.map_cons, hn, if_neg, reduceIte]
      have ih := DataCache.add_of_not_mem rest f args h.2
      simp only [DataCache.add] at ih
      rw [ih]

theorem pairCount_zero_of_not_mem :
    (cache : DataCache) → (g : String) → (b : List Value) →
    g ∉ cache.map (·.1) → pairCount cache (g, b) = 0
  | [], _, _, _ => by simp [pairCount, cachePairs]
  | (n, es) :: rest, g, b, h => by
      simp only [List.map, List.mem_cons] at h
      push_neg at h
      have hn : n ≠ g := fun hh => h.1 hh.symm
      have ih := pairCount_zero_of_not_mem rest g b h.2
      simp only [pairCount, cachePairs, List.count_append] at ih ⊢
      rw [count_map_entries n g b es, if_neg hn, ih]

theorem pairCount_add :
    (cache : DataCache) → (names : List String) → (f : String) →
    (args : List Value) →
    cache.map (·.1) = names → names.Nodup → f ∈ names →
    ((DataCache.add cache f args).map (·.1) = names ∧
      ∀ p, pairCount (DataCache.add cache f args) p =
        if p = (f, args) ∧ pairCount cache (f, args) = 0 then
          pairCount cache p + 1
        else pairCount cache p)
  | [], names, f, args, hc, hnd, hf => by
      rw [← hc] at hf
      simp at hf
  | (n, es) :: rest, names, f, args, hc, hnd, hf => by
      subst hc
      simp only [List.map_cons] at hnd hf
      rw [List.nodup_cons] at hnd
      rw [List.mem_cons] at hf
      by_cases hn : n = f
      · subst hn
        have hrest0 : DataCache.add rest n args = rest :=
          DataCache.add_of_not_mem rest n args hnd.1
        have hrestzero : pairCount rest (n, args) = 0 :=
          pairCount_zero_of_not_mem rest n args hnd.1
        have hmapeq : (List.map
            (fun nameEntries =>
              if nameEntries.1 = n then
                (nameEntries.1, cacheBuilderAdd nameEntries.2 args)
              else nameEntries) rest) = rest := hrest0
        constructor
        · simp only [DataCache.add, List.map_cons, reduceIte]
          rw [hmapeq]
        · intro p
          obtain ⟨g, b⟩ := p
          simp only [DataCache.add, List.map_cons, reduceIte]
          rw [hmapeq]
          simp only [pairCount, cachePairs, List.count_append]
          simp only [pairCount] at hrestzero
          rw [count_map_entries n g b (cacheBuilderAdd es args),
            count_map_entries n g b es]
          by_cases hg : n = g
          · subst hg
            rw [count_cacheBuilderAdd args b es,
              count_map_entries n n args es]
            simp only [if_pos rfl, hrestzero, Nat.add_zero]
            by_cases hb : b = args
            · subst hb
              by_cases hz : (es.map fun e => e.args).count b = 0 <;>
                simp [hz, hrestzero]
            · have hne : ¬(((n, b) : String × List Value) = (n, args)) := by
                intro hh
                exact hb (by injection hh)
              simp [hb, hne]
          · have hne : ¬(((g, b) : String × List Value) = (n, args)) := by
              intro hh
              injection hh with h1 h2
              exact hg h1.symm
            rw [count_map_entries n n args es]
            simp [hg, hne]
      · have hfrest : f ∈ rest.map (·.1) := by
          rcases hf with hf | hf
          · exact absurd hf.symm hn
          · exact hf
        obtain ⟨ihmap, ihcount⟩ := pairCount_add rest (rest.map (·.1)) f args
          rfl hnd.2 hfrest
        simp only [DataCache.add] at ihmap ihcount
        constructor
        · simp only [DataCache.add, List.map_cons, hn, if_neg, reduceIte]
          rw [ihmap]
        · intro p
          obtain ⟨g, b⟩ := p
          simp only [DataCache.add, List.map_cons, hn, if_neg, reduceIte]
          have ihc := ihcount (g, b)
          simp only [pairCount, cachePairs, List.count_append] at ihc ⊢
          rw [count_map_entries n g b es, count_map_entries n f args es]
          rw [ihc]
          simp only [hn, if_false, Nat.zero_add, Prod.mk.injEq]
          by_cases hcond : (g = f ∧ b = args) ∧
              (cachePairs rest).count (f, args) = 0 <;>
            simp [hcond]

/-- Pass-1 evaluation of one template: the cache keeps all its previous pairs,
gains exactly the pairs called by the chunks, preserves its fetcher-name
spine, and stays deduplicated. -/
theorem runCacheBuilders_char :
    (chunks : List Chunk) → (cache cache' : DataCache) →
    (names : List String) →
    cache.map (·.1) = names → names.Nodup →
    runCacheBuilders names chunks cache = .ok cache' →
    (cache'.map (·.1) = names ∧
      (∀ p, pairCount cache' p = 0 ↔
        pairCount cache p = 0 ∧ p ∉ chunkCalls chunks) ∧
      (cacheDedup cache → cacheDedup cache'))
  | [], cache, cache', names, hc, hnd, hrun => by
      rw [runCacheBuilders] at hrun
      injection hrun with hrun
      subst hrun
      refine ⟨hc, ?_, fun hd => hd⟩
      intro p
      simp [chunkCalls]
  | .lit s :: rest, cache, cache', names, hc, hnd, hrun => by
      rw [runCacheBuilders] at hrun
      obtain ⟨hmap, hcount, hdedup⟩ :=
        runCacheBuilders_char rest cache cache' names hc hnd hrun
      refine ⟨hmap, ?_, hdedup⟩
      intro p
      simp only [chunkCalls, List.filterMap_cons]
      exact hcount p
  | .call g b :: rest, cache, cache', names, hc, hnd, hrun => by
      rw [runCacheBuilders] at hrun
      by_cases hcontains : names.contains g
      · rw [if_pos hcontains] at hrun
        have hgmem : g ∈ names := List.mem_of_elem_eq_true hcontains
        obtain ⟨haddmap, haddcount⟩ :=
          pairCount_add cache names g b hc hnd hgmem
        obtain ⟨hmap, hcount, hdedup⟩ :=
          runCacheBuilders_char rest (cache.add g b) cache' names haddmap hnd
            hrun
        refine ⟨hmap, ?_, ?_⟩
        · intro p
          rw [hcount p]
          have hadd := haddcount p
          constructor
          · intro ⟨haddz, hnotin⟩
            by_cases hp : p = (g, b)
            · subst hp
              rw [hadd] at haddz
              by_cases hz : pairCount cache (g, b) = 0
              · simp [hz] at haddz
              · simp [hz] at haddz
            · rw [hadd, if_neg (fun hh => hp hh.1)] at haddz
              refine ⟨haddz, ?_⟩
              simp only [chunkCalls, List.filterMap_cons, List.mem_cons]
              intro hm
              rcases hm with hm | hm
              · exact hp hm
              · exact hnotin hm
          · intro ⟨hz, hnotin⟩
            simp only [chunkCalls, List.filterMap_cons, List.mem_cons] at hnotin
            push_neg at hnotin
            rw [hadd, if_neg (fun hh => hnotin.1 hh.1)]
            exact ⟨hz, hnotin.2⟩
        · intro hd
          refine hdedup ?_
          intro p
          rw [haddcount p]
          by_cases hcond : p = (g, b) ∧ pairCount cache (g, b) = 0
          · rw [if_pos hcond]
            rw [hcond.1, hcond.2]
          · rw [if_neg hcond]
            exact hd p
      · rw [if_neg hcontains] at hrun
        exact absurd hrun (by simp)

/- The discovery pass over a whole value: the resulting cache keeps its
fetcher-name spine, stays deduplicated, and holds exactly the previous pairs
plus the pairs referenced by the templates of the value. -/
mutual
theorem transformDiscoverValue (templateKey : String) (compile : Compile)
    (names : List String) :
    (v : Value) → (cache : DataCache) → (out : DataCache × Value) →
    cache.map (·.1) = names → names.Nodup →
    transformTemplates templateKey
        (fun c tpl =>
          match runCacheBuilders names (compile tpl) c with
          | .error e => .error e
          | .ok c' => .ok (c', none)) cache v = .ok out →
    (out.1.map (·.1) = names ∧
      (∀ p, pairCount out.1 p = 0 ↔
        pairCount cache p = 0 ∧ p ∉ referencedCalls templateKey compile v) ∧
      (cacheDedup cache → cacheDedup out.1))
  | .null, cache, out, hc, hnd, hrun => by
      have h2 : (Except.ok (cache, Value.null) : Except Err (DataCache × Value)) = .ok out := hrun
      injection h2 with h2
      subst h2
      exact ⟨hc, fun p => by simp [referencedCalls], fun hd => hd⟩
  | .bool b, cache, out, hc, hnd, hrun => by
      have h2 : (Except.ok (cache, Value.bool b) : Except Err (DataCache × Value)) = .ok out := hrun
      injection h2 with h2
      subst h2
      exact ⟨hc, fun p => by simp [referencedCalls], fun hd => hd⟩
  | .num n, cache, out, hc, hnd, hrun => by
      have h2 : (Except.ok (cache, Value.num n) : Except Err (DataCache × Value)) = .ok out := hrun
      injection h2 with h2
      subst h2
      exact ⟨hc, fun p => by simp [referencedCalls], fun hd => hd⟩
  | .str s, cache, out, hc, hnd, hrun => by
      have h2 : (Except.ok (cache, Value.str s) : Except Err (DataCache × Value)) = .ok out := hrun
      injection h2 with h2
      subst h2
      exact ⟨hc, fun p => by simp [referencedCalls], fun hd => hd⟩
  | .arr items, cache, out, hc, hnd, hrun => by
      rw [transformTemplates] at hrun
      cases hi : transformTemplatesItems templateKey
          (fun c tpl =>
            match runCacheBuilders names (compile tpl) c with
            | .error e => .error e
            | .ok c' => .ok (c', none)) cache items with
      | error e => rw [hi] at hrun; exact absurd hrun (by simp)
      | ok outi =>
          rw [hi] at hrun
          obtain ⟨ci, items'⟩ := outi
          injection hrun with hrun
          obtain ⟨hmap, hcount, hded⟩ := transformDiscoverItems templateKey
            compile names items cache (ci, items') hc hnd hi
          subst hrun
          exact ⟨hmap, fun p => by
            rw [referencedCalls]
            exact hcount p, hded⟩
  | .obj fields, cache, out, hc, hnd, hrun => by
      rw [transformTemplates] at hrun
      by_cases hk : keysOf fields = [templateKey]
      · rw [if_pos hk] at hrun
        cases hrb : runCacheBuilders names
            (compile (jsStr fields.firstValue)) cache with
        | error e =>
            rw [hrb] at hrun
            exact absurd hrun (by simp)
        | ok c' =>
            rw [hrb] at hrun
            have h2 : (Except.ok (c', Value.obj fields) :
                Except Err (DataCache × Value)) = .ok out := hrun
            injection h2 with h2
            obtain ⟨hmap, hcount, hded⟩ := runCacheBuilders_char
              (compile (jsStr fields.firstValue)) cache c' names hc hnd hrb
            subst h2
            refine ⟨hmap, ?_, hded⟩
            intro p
            rw [referencedCalls, if_pos hk]
            exact hcount p
      · rw [if_neg hk] at hrun
        cases hfs : transformTemplatesFields templateKey
            (fun c tpl =>
              match runCacheBuilders names (compile tpl) c with
              | .error e => .error e
              | .ok c' => .ok (c', none)) cache fields with
        | error e => rw [hfs] at hrun; exact absurd hrun (by simp)
        | ok outf =>
            rw [hfs] at hrun
            obtain ⟨cf, fields'⟩ := outf
            injection hrun with hrun
            obtain ⟨hmap, hcount, hded⟩ := transformDiscoverFields templateKey
              compile names fields cache (cf, fields') hc hnd hfs
            subst hrun
            refine ⟨hmap, ?_, hded⟩
            intro p
            rw [referencedCalls, if_neg hk]
            exact hcount p

theorem transformDiscoverItems (templateKey : String) (compile : Compile)
    (names : List String) :
    (items : Items) → (cache : DataCache) → (out : DataCache × Items) →
    cache.map (·.1) = names → names.Nodup →
    transformTemplatesItems templateKey
        (fun c tpl =>
          match runCacheBuilders names (compile tpl) c with
          | .error e => .error e
          | .ok c' => .ok (c', none)) cache items = .ok out →
    (out.1.map (·.1) = names ∧
      (∀ p, pairCount out.1 p = 0 ↔
        pairCount cache p = 0 ∧
          p ∉ referencedCallsItems templateKey compile items) ∧
      (cacheDedup cache → cacheDedup out.1))
  | .nil, cache, out, hc, hnd, hrun => by
      have h2 : (Except.ok (cache, Items.nil) : Except Err (DataCache × Items)) = .ok out := hrun
      injection h2 with h2
      subst h2
      exact ⟨hc, fun p => by simp [referencedCallsItems], fun hd => hd⟩
  | .cons v rest, cache, out, hc, hnd, hrun => by
      rw [transformTemplatesItems] at hrun
      cases hv : transformTemplates templateKey
          (fun c tpl =>
            match runCacheBuilders names (compile tpl) c with
            | .error e => .error e
            | .ok c' => .ok (c', none)) cache v with
      | error e => rw [hv] at hrun; exact absurd hrun (by simp)
      | ok outv =>
          obtain ⟨cv, v'⟩ := outv
          simp only [hv] at hrun
          obtain ⟨hmapv, hcountv, hdedv⟩ := transformDiscoverValue templateKey
            compile names v cache (cv, v') hc hnd hv
          cases hr : transformTemplatesItems templateKey
              (fun c tpl =>
                match runCacheBuilders names (compile tpl) c with
                | .error e => .error e
                | .ok c' => .ok (c', none)) cv rest with
          | error e => rw [hr] at hrun; exact absurd hrun (by simp)
          | ok outr =>
              obtain ⟨cr, rest'⟩ := outr
              simp only [hr] at hrun
              injection hrun with hrun
              obtain ⟨hmapr, hcountr, hdedr⟩ := transformDiscoverItems
                templateKey compile names rest cv (cr, rest') hmapv hnd hr
              subst hrun
              refine ⟨hmapr, ?_, fun hd => hdedr (hdedv hd)⟩
              intro p
              rw [hcountr p, hcountv p]
              simp only [referencedCallsItems, List.mem_append]
              constructor
              · intro ⟨⟨h1, h2⟩, h3⟩
                exact ⟨h1, fun hm => hm.elim h2 h3⟩
              · intro ⟨h1, h2⟩
                exact ⟨⟨h1, fun hm => h2 (Or.inl hm)⟩,
                  fun hm => h2 (Or.inr hm)⟩

theorem transformDiscoverFields (templateKey : String) (compile : Compile)
    (names : List String) :
    (fields : Fields) → (cache : DataCache) → (out : DataCache × Fields) →
    cache.map (·.1) = names → names.Nodup →
    transformTemplatesFields templateKey
        (fun c tpl =>
          match runCacheBuilders names (compile tpl) c with
          | .error e => .error e
          | .ok c' => .ok (c', none)) cache fields = .ok out →
    (out.1.map (·.1) = names ∧
      (∀ p, pairCount out.1 p = 0 ↔
        pairCount cache p = 0 ∧
          p ∉ referencedCallsFields templateKey compile fields) ∧
      (cacheDedup cache → cacheDedup out.1))
  | .nil, cache, out, hc, hnd, hrun => by
      have h2 : (Except.ok (cache, Fields.nil) : Except Err (DataCache × Fields)) = .ok out := hrun
      injection h2 with h2
      subst h2
      exact ⟨hc, fun p => by simp [referencedCallsFields], fun hd => hd⟩
  | .cons k v rest, cache, out, hc, hnd, hrun => by
      rw [transformTemplatesFields] at hrun
      cases hv : transformTemplates templateKey
          (fun c tpl =>
            match runCacheBuilders names (compile tpl) c with
            | .error e => .error e
            | .ok c' => .ok (c', none)) cache v with
      | error e => rw [hv] at hrun; exact absurd hrun (by simp)
      | ok outv =>
          obtain ⟨cv, v'⟩ := outv
          simp only [hv] at hrun
          obtain ⟨hmapv, hcountv, hdedv⟩ := transformDiscoverValue templateKey
            compile names v cache (cv, v') hc hnd hv
          cases hr : transformTemplatesFields templateKey
              (fun c tpl =>
                match runCacheBuilders names (compile tpl) c with
                | .error e => .error e
                | .ok c' => .ok (c', none)) cv rest with
          | error e => rw [hr] at hrun; exact absurd hrun (by simp)
          | ok outr =>
              obtain ⟨cr, rest'⟩ := outr
              simp only [hr] at hrun
              injection hrun with hrun
              obtain ⟨hmapr, hcountr, hdedr⟩ := transformDiscoverFields
                templateKey compile names rest cv (cr, rest') hmapv hnd hr
              subst hrun
              refine ⟨hmapr, ?_, fun hd => hdedr (hdedv hd)⟩
              intro p
              rw [hcountr p, hcountv p]
              simp only [referencedCallsFields, List.mem_append]
              constructor
              · intro ⟨⟨h1, h2⟩, h3⟩
                exact ⟨h1, fun hm => hm.elim h2 h3⟩
              · intro ⟨h1, h2⟩
                exact ⟨⟨h1, fun hm => h2 (Or.inl hm)⟩,
                  fun hm => h2 (Or.inr hm)⟩
end

/-- The invocation log of fetchEntries: one invocation per cache entry, in
order. -/
theorem fetchEntries_log (fetchers : DataFetchers) (name : String) :
    (entries : List ReferencedDataEntry) →
    (out : List ReferencedDataEntry × List (String × List Value) × RequestTrace) →
    fetchEntries fetchers name entries = .ok out →
    out.2.1 = entries.map fun e => (name, e.args)
  | [], out, h => by
      rw [fetchEntries] at h
      injection h with h
      rw [← h]
      simp
  | entry :: rest, out, h => by
      rw [fetchEntries] at h
      cases hfa : findAssoc fetchers name with
      | none => rw [hfa] at h; exact absurd h (by simp)
      | some fetch =>
          simp only [hfa] at h
          cases hfetch : fetch entry.args with
          | error e => simp only [hfetch] at h; exact absurd h (by simp)
          | ok dataTrace =>
              obtain ⟨data, trace⟩ := dataTrace
              simp only [hfetch] at h
              cases hrest : fetchEntries fetchers name rest with
              | error e => simp only [hrest] at h; exact absurd h (by simp)
              | ok outRest =>
                  obtain ⟨rest', log, trace'⟩ := outRest
                  simp only [hrest] at h
                  have hlog := fetchEntries_log fetchers name rest
                    (rest', log, trace') hrest
                  injection h with h
                  rw [← h]
                  simp only [List.map]
                  rw [← hlog]

/-- The invocation log of fetchData is exactly the list of cache pairs: each
pair held by the cache is invoked exactly as often as it is held. -/
theorem fetchData_log (fetchers : DataFetchers) :
    (cache : DataCache) →
    (out : DataCache × List (String × List Value) × RequestTrace) →
    fetchData fetchers cache = .ok out →
    out.2.1 = cachePairs cache
  | [], out, h => by
      rw [fetchData] at h
      injection h with h
      rw [← h]
      simp [cachePairs]
  | (name, entries) :: rest, out, h => by
      rw [fetchData] at h
      cases he : fetchEntries fetchers name entries with
      | error e => rw [he] at h; exact absurd h (by simp)
      | ok oute =>
          obtain ⟨entries', log, trace⟩ := oute
          simp only [he] at h
          cases hr : fetchData fetchers rest with
          | error e => simp only [hr] at h; exact absurd h (by simp)
          | ok outr =>
              obtain ⟨rest', log', trace'⟩ := outr
              simp only [hr] at h
              injection h with h
              rw [← h]
              simp only [cachePairs]
              have h1 : log = entries.map fun e => (name, e.args) :=
                fetchEntries_log fetchers name entries (entries', log, trace)
                  he
              have h2 : log' = cachePairs rest :=
                fetchData_log fetchers rest (rest', log', trace') hr
              rw [h1, h2]

/-- C6: within a single render call, every (fetcher, args) pair referenced by
the templates of the value is invoked exactly once, args equality being
structural: the invocation log counts each referenced pair once and every
other pair zero times, duplicate references sharing the single cached
invocation. -/
theorem render_invokes_each_referenced_pair_once (templateKey : String)
    (compile : Compile) (fetchers : DataFetchers) (v : Value)
    (result : Option Value) (log : List (String × List Value))
    (trace : RequestTrace)
    (hnd : (fetchers.map (·.1)).Nodup)
    (hrun : render templateKey compile fetchers (some v) =
      .ok (result, log, trace)) :
    ∀ p, log.count p =
      if p ∈ referencedCalls templateKey compile v then 1 else 0 := by
  intro p
  unfold render discoverReferencedData at hrun
  cases hdisc : transformTemplates templateKey
      (fun c tpl =>
        match runCacheBuilders (fetchers.map (·.1)) (compile tpl) c with
        | .error e => .error e
        | .ok c' => .ok (c', none))
      (fetchers.map fun nf => (nf.1, [])) v with
  | error e => simp only [hdisc] at hrun; exact absurd hrun (by simp)
  | ok out1 =>
      obtain ⟨c1, v2⟩ := out1
      simp only [hdisc] at hrun
      have hc0 : (fetchers.map fun nf =>
            (nf.1, ([] : List ReferencedDataEntry))).map (·.1) =
          fetchers.map (·.1) := by
        simp
      obtain ⟨hmap1, hcount1, hded1⟩ := transformDiscoverValue templateKey
        compile (fetchers.map (·.1)) v (fetchers.map fun nf => (nf.1, []))
        (c1, v2) hc0 hnd hdisc
      cases hfd : fetchData fetchers c1 with
      | error e => simp only [hfd] at hrun; exact absurd hrun (by simp)
      | ok out2 =>
          obtain ⟨c2, log0, tr0⟩ := out2
          simp only [hfd] at hrun
          unfold substituteTemplates at hrun
          cases hsub : transformTemplates templateKey
              (fun u tpl =>
                match runCacheDataFinders c2 (compile tpl) with
                | .error e => .error e
                | .ok s => .ok (u, some (.str s)))
              () v with
          | error e => simp only [hsub] at hrun; exact absurd hrun (by simp)
          | ok out3 =>
              obtain ⟨u3, v3⟩ := out3
              simp only [hsub] at hrun
              injection hrun with hrun
              have hlogeq : log = log0 := by
                have := congrArg (fun t => t.2.1) hrun
                simp at this
                exact this.symm
              have hlog0 : log0 = cachePairs c1 :=
                fetchData_log fetchers c1 (c2, log0, tr0) hfd
              have hzero1 : pairCount (fetchers.map fun nf => (nf.1, [])) p = 0 := by
                simp [pairCount, cachePairs_init]
              have hchar := hcount1 p
              rw [hlogeq, hlog0]
              have hded : pairCount c1 p ≤ 1 := by
                refine hded1 ?_ p
                intro q
                simp [pairCount, cachePairs_init]
              by_cases hmem : p ∈ referencedCalls templateKey compile v
              · rw [if_pos hmem]
                have hne : ¬pairCount c1 p = 0 := by
                  intro h0
                  exact (hchar.mp h0).2 hmem
                simp only [pairCount] at hded hne
                omega
              · rw [if_neg hmem]
                have hz : pairCount c1 p = 0 := hchar.mpr ⟨hzero1, hmem⟩
                simpa [pairCount] using hz

def compileDup : Compile :=
  fun s => if s = "T1" then [.call "f" [.str "x"]] else [.lit s]

def fetchersDup : DataFetchers :=
  [("f", fun _ => .ok (some (.str "A"), []))]

def valueDup : Value :=
  .obj (.cons "a" (tplObj "T1") (.cons "b" (tplObj "T1") .nil))

/-- C6 witness: both templates reference the same (fetcher, args) pair and
the render invocation log holds that pair exactly once. -/
theorem render_invokes_each_referenced_pair_once_witness :
    ([("f", [Value.str "x"])] : List (String × List Value)).count
        ("f", [Value.str "x"]) =
      if ("f", [Value.str "x"]) ∈ referencedCalls "$format" compileDup valueDup
      then 1 else 0 :=
  render_invokes_each_referenced_pair_once "$format" compileDup fetchersDup
    valueDup
    (some (.obj (.cons "a" (.str "A") (.cons "b" (.str "A") .nil))))
    [("f", [Value.str "x"])] [] (by decide) rfl ("f", [Value.str "x"])
